import Mathlib

/-!
# Music store point-of-sale client (`src/app.js`): catalog grouping and form handlers

Shallow embedding of the browser client.  DOM reads are taken as function
arguments, the effects of a handler (messages shown, requests sent) are returned
as values.  Ids and the numerals of a JSON reply are `Int` and `ℚ`; the numbers
the client computes with (`+`, `*`, `<` on stock totals and order totals) are
binary64 values, `JsNumber`, every arithmetic result rounded to nearest, ties to
even.  `parseInt` results are `Option`s, with `none` standing for `NaN`.
-/

namespace MusicStore

/-! ## Data model -/

/-- One raw inventory row of `result.data`, as returned by `GET /api/inventory`. -/
structure InventoryRow where
  ProductID : Int
  Title : String
  Artist : String
  Genre : String
  Price : ℚ
  FormatID : Int
  Quantity : Int
  SKU : String
deriving DecidableEq

/-- One entry of `product.formats` (app.js 62-72). -/
structure FormatEntry where
  id : Int
  name : String
  quantity : Int
  sku : String
deriving DecidableEq

/-- One grouped product object (app.js 51-58). -/
structure Product where
  id : Int
  title : String
  artist : String
  genre : String
  price : ℚ
  formats : List FormatEntry
deriving DecidableEq

/-! ## `loadCatalog` (app.js 25-85) -/

/-- The configured API endpoint (app.js 5). -/
def API_URL : String := "http://localhost:3000/api"

/-- The request URL built from the catalog filter (app.js 34-39). -/
def catalogUrl (filter : String) : String :=
  let url := API_URL ++ "/inventory"
  if filter = "vinyl" then url ++ "?formatId=1"
  else if filter = "cd" then url ++ "?formatId=2"
  else if filter = "cassette" then url ++ "?formatId=3"
  else if filter = "lowstock" then url ++ "?lowstock=true"
  else url

/-- The format-name conditional of `loadCatalog` (app.js 64-69), strict `===`. -/
def catalogFormatName (formatID : Int) : String :=
  if formatID = 1 then "Vinyl" else if formatID = 2 then "CD" else "Cassette"

/-- The object pushed onto `formats` for a row (app.js 62-72). -/
def formatEntry (item : InventoryRow) : FormatEntry :=
  { id := item.FormatID
    name := catalogFormatName item.FormatID
    quantity := item.Quantity
    sku := item.SKU }

/-- The product object created at the first row of a product (app.js 51-58). -/
def newProduct (item : InventoryRow) : Product :=
  { id := item.ProductID
    title := item.Title
    artist := item.Artist
    genre := item.Genre
    price := item.Price
    formats := [] }

/-- A JavaScript `Map` from product id to product object: entries in insertion
order. -/
abbrev ProductMap := List (Int × Product)

/-- `Map.prototype.has`. -/
def ProductMap.has (m : ProductMap) (k : Int) : Bool :=
  m.any (fun e => e.1 == k)

/-- `Map.prototype.get`; `none` is `undefined`. -/
def ProductMap.get (m : ProductMap) (k : Int) : Option Product :=
  (m.find? (fun e => e.1 == k)).map Prod.snd

/-- `Map.prototype.set`: an existing key keeps its position, a new key is appended. -/
def ProductMap.set (m : ProductMap) (k : Int) (v : Product) : ProductMap :=
  if m.has k then m.map (fun e => if e.1 == k then (k, v) else e) else m ++ [(k, v)]

/-- `Array.from(productMap.values())`. -/
def ProductMap.values (m : ProductMap) : List Product :=
  m.map Prod.snd

/-- The keys of the map, in insertion order. -/
def ProductMap.keys (m : ProductMap) : List Int :=
  m.map Prod.fst

/-- One iteration of the `forEach` of app.js 49-73.  The `push` mutates the object
the map holds under the row's product id, which is modelled as storing the
extended object under the same key.  `none` is the `TypeError` of reading
`.formats` of `undefined`. -/
def groupStep (m : ProductMap) (item : InventoryRow) : Option ProductMap :=
  let m1 := if !m.has item.ProductID then m.set item.ProductID (newProduct item) else m
  match m1.get item.ProductID with
  | none => none
  | some p =>
    some (m1.set item.ProductID { p with formats := p.formats ++ [formatEntry item] })

/-- Closed form of one iteration on a map without repeated keys: a known product
id gets the row's format entry appended in place, a new one is appended with that
single entry. -/
def groupStepT (m : ProductMap) (item : InventoryRow) : ProductMap :=
  if m.has item.ProductID then
    m.map (fun e =>
      if e.1 == item.ProductID then
        (e.1, { e.2 with formats := e.2.formats ++ [formatEntry item] })
      else e)
  else
    m ++ [(item.ProductID, { newProduct item with formats := [formatEntry item] })]

/-- The whole `forEach` over `result.data`, starting from `new Map()`. -/
def groupRows (rows : List InventoryRow) : Option ProductMap :=
  rows.foldlM groupStep []

/-- The `forEach` with `groupStepT` for each iteration. -/
def groupRowsT (rows : List InventoryRow) : ProductMap :=
  rows.foldl groupStepT []

/-- The value assigned to `allProducts` (app.js 47-76) for the rows `result.data`. -/
def loadCatalogProducts (rows : List InventoryRow) : Option (List Product) :=
  (groupRows rows).map ProductMap.values

/-! ## JavaScript numbers -/

/-- A JavaScript number: a finite binary64 value, given by the rational it equals
(the two zeros are not told apart), an infinity, or `NaN`. -/
inductive JsNumber where
  | finite (value : ℚ)
  | posInf
  | negInf
  | nan
deriving DecidableEq

/-- The integer nearest to `x`, the even one of two at equal distance. -/
def roundHalfEven (x : ℚ) : ℤ :=
  if x - ⌊x⌋ < 1 / 2 then ⌊x⌋
  else if 1 / 2 < x - ⌊x⌋ then ⌊x⌋ + 1
  else if ⌊x⌋ % 2 = 0 then ⌊x⌋ else ⌊x⌋ + 1

/-- The exponent of the spacing of binary64 values around `x ≠ 0`: 52 below the
exponent of `x`, and -1074 in the subnormal range. -/
def ulpExponent (x : ℚ) : ℤ :=
  max (Int.log 2 |x| - 52) (-1074)

/-- The binary64 value of the real number `x`: rounded to nearest, ties to even,
to 53 significant bits, and to an infinity from 2^1024 on. -/
def round64 (x : ℚ) : JsNumber :=
  if x = 0 then .finite 0
  else
    let y : ℚ := roundHalfEven (x / 2 ^ ulpExponent x) * 2 ^ ulpExponent x
    if 2 ^ 1024 ≤ y then .posInf
    else if y ≤ -2 ^ 1024 then .negInf
    else .finite y

/-- The JavaScript `a + b` on numbers. -/
def jsAdd : JsNumber → JsNumber → JsNumber
  | .finite a, .finite b => round64 (a + b)
  | .nan, _ => .nan
  | _, .nan => .nan
  | .posInf, .negInf => .nan
  | .negInf, .posInf => .nan
  | .posInf, _ => .posInf
  | _, .posInf => .posInf
  | .negInf, _ => .negInf
  | _, .negInf => .negInf

/-- The sign rule of a product with an infinity: `NaN` for a zero factor. -/
def infTimes (positive : Bool) (a : ℚ) : JsNumber :=
  if a = 0 then .nan
  else if (0 < a) = positive then .posInf
  else .negInf

/-- The JavaScript `a * b` on numbers. -/
def jsMul : JsNumber → JsNumber → JsNumber
  | .finite a, .finite b => round64 (a * b)
  | .nan, _ => .nan
  | _, .nan => .nan
  | .finite a, .posInf => infTimes true a
  | .finite a, .negInf => infTimes false a
  | .posInf, .finite b => infTimes true b
  | .negInf, .finite b => infTimes false b
  | .posInf, .posInf => .posInf
  | .negInf, .negInf => .posInf
  | .posInf, .negInf => .negInf
  | .negInf, .posInf => .negInf

/-- The JavaScript `a < b` on numbers: false whenever a `NaN` is involved. -/
def jsLt : JsNumber → JsNumber → Bool
  | .finite a, .finite b => decide (a < b)
  | .nan, _ => false
  | _, .nan => false
  | .negInf, .negInf => false
  | .negInf, _ => true
  | _, .negInf => false
  | .posInf, _ => false
  | _, .posInf => true

/-- The JavaScript `x || 0` on a number: `NaN` and zero are falsy. -/
def jsOrZero : JsNumber → JsNumber
  | .nan => .finite 0
  | .finite v => if v = 0 then .finite 0 else .finite v
  | x => x

/-- The number an integer numeral of a JSON reply is parsed to. -/
def JsNumber.ofInt (n : Int) : JsNumber :=
  round64 n

/-- `parseFloat` on the text of a number input: `NaN` for a text without a
numeral (`none`), else the binary64 value of the decimal the text denotes. -/
def parseFloat (text : Option ℚ) : JsNumber :=
  match text with
  | none => .nan
  | some v => round64 v

/-- The amount `toFixed(2)` writes for a number, in hundredths: the integer `n`
with `n / 100` nearest to the number, the larger of two at equal distance, under
the number's sign.  `none` where the text is not a two-decimal numeral (`NaN`,
an infinity, or 10^21 and beyond). -/
def toFixed2 : JsNumber → Option ℤ
  | .finite v =>
    if 10 ^ 21 ≤ |v| then none
    else if v < 0 then some (-⌊100 * -v + 1 / 2⌋)
    else some ⌊100 * v + 1 / 2⌋
  | _ => none

/-! ## `displayProducts` (app.js 91-136) -/

/-- The `reduce` of app.js 109: the quantities of the formats, parsed from the
reply, added up from 0 in their order. -/
def totalStock (product : Product) : JsNumber :=
  product.formats.foldl (fun sum f => jsAdd sum (JsNumber.ofInt f.quantity)) (.finite 0)

/-- The class chosen at app.js 110. -/
def stockClass (total : JsNumber) : String :=
  if jsLt total (.finite 10) then "stock-low" else "stock-ok"

/-- What one product card shows (app.js 104-134); the markup itself is not modelled. -/
structure ProductCard where
  productId : Int
  title : String
  artist : String
  price : ℚ
  badges : List (String × JsNumber)
  totalStock : JsNumber
  stockClass : String
deriving DecidableEq

/-- The card built for one product (app.js 103-135). -/
def productCard (product : Product) : ProductCard :=
  let total := totalStock product
  { productId := product.id
    title := product.title
    artist := product.artist
    price := product.price
    badges := product.formats.map (fun f => (f.name, JsNumber.ofInt f.quantity))
    totalStock := total
    stockClass := stockClass total }

/-- The content of the catalog grid. -/
inductive CatalogGrid where
  | noProducts (message : String)
  | cards (cs : List ProductCard)
deriving DecidableEq

/-- `displayProducts(products)` (app.js 91-136). -/
def displayProducts (products : List Product) : CatalogGrid :=
  if products.length = 0 then .noProducts "No products match your search."
  else .cards (products.map productCard)

/-- The cards a grid holds (none under the no-products message). -/
def CatalogGrid.cardList : CatalogGrid → List ProductCard
  | .noProducts _ => []
  | .cards cs => cs

/-- Format ids in the display order Vinyl (1), CD (2), Cassette (3): ascending. -/
def ascendingFormatIds (ids : List Int) : Prop :=
  ids.Pairwise (fun a b => a ≤ b)

instance (ids : List Int) : Decidable (ascendingFormatIds ids) := by
  unfold ascendingFormatIds
  exact inferInstance

/-- Two rows of product 7 that arrive CD first, Vinyl second. -/
def rowsCdThenVinyl : List InventoryRow :=
  [ { ProductID := 7, Title := "Moonlight", Artist := "Ana", Genre := "Jazz", Price := 20,
      FormatID := 2, Quantity := 0, SKU := "M-CD" },
    { ProductID := 7, Title := "Moonlight", Artist := "Ana", Genre := "Jazz", Price := 20,
      FormatID := 1, Quantity := 5, SKU := "M-V" } ]

/-! ## `loadProductDetails` (app.js 462-535) -/

/-- The format-name conditional of `loadProductDetails` (app.js 514-515). -/
def detailsFormatName (formatID : Int) : String :=
  if formatID = 1 then "Vinyl" else if formatID = 2 then "CD" else "Cassette"

/-- The `reduce` of app.js 472 over the rows `result.data`: their quantities,
parsed from the reply, added up from 0 in their order. -/
def detailsTotalStock (rows : List InventoryRow) : JsNumber :=
  rows.foldl (fun sum d => jsAdd sum (JsNumber.ofInt d.Quantity)) (.finite 0)

/-- What the details pane shows. -/
structure ProductDetails where
  title : String
  productId : Int
  artist : String
  genre : String
  price : ℚ
  totalStock : JsNumber
  table : List (String × JsNumber × String)
deriving DecidableEq

/-- `loadProductDetails` on the rows `result.data`: nothing is rendered for an
empty list (app.js 470), else the header is taken from the first row. -/
def loadProductDetails (rows : List InventoryRow) : Option ProductDetails :=
  match rows with
  | [] => none
  | item :: _ =>
    some
      { title := item.Title
        productId := item.ProductID
        artist := item.Artist
        genre := item.Genre
        price := item.Price
        totalStock := detailsTotalStock rows
        table :=
          rows.map (fun inv =>
            (detailsFormatName inv.FormatID, JsNumber.ofInt inv.Quantity, inv.SKU)) }

/-! ## `updateOrderTotal` (app.js 760-769) -/

/-- One `.order-item` block as `updateOrderTotal` reads it: the texts of its
quantity and price inputs, each `none` when blank or without a numeral, else the
decimal value it denotes. -/
structure OrderItemInputs where
  quantity : Option ℚ
  price : Option ℚ
deriving DecidableEq

/-- The value of `total` after the `forEach` of app.js 761-767 over the
`.order-item` blocks in document order. -/
def updateOrderTotal (items : List OrderItemInputs) : JsNumber :=
  items.foldl
    (fun total item =>
      let quantity := jsOrZero (parseFloat item.quantity)
      let price := jsOrZero (parseFloat item.price)
      jsAdd total (jsMul quantity price))
    (.finite 0)

/-- The amount written to the total field (app.js 768), in hundredths. -/
def shownOrderTotal (items : List OrderItemInputs) : Option ℤ :=
  toFixed2 (updateOrderTotal items)

/-- The texts of an order line of `l.1` units at a unit price of `l.2` hundredths. -/
def centsLine (l : ℕ × ℕ) : OrderItemInputs :=
  { quantity := some (l.1 : ℚ), price := some ((l.2 : ℚ) / 100) }

/-- Two rows of product 7 whose quantities 2^53 and 1 add up to 2^53 + 1. -/
def rowsHugeStock : List InventoryRow :=
  [ { ProductID := 7, Title := "Moonlight", Artist := "Ana", Genre := "Jazz", Price := 20,
      FormatID := 1, Quantity := 9007199254740992, SKU := "M-V" },
    { ProductID := 7, Title := "Moonlight", Artist := "Ana", Genre := "Jazz", Price := 20,
      FormatID := 2, Quantity := 1, SKU := "M-CD" } ]

/-- The product `loadCatalog` groups the rows `rowsHugeStock` into. -/
def hugeStockProduct : Product :=
  { id := 7, title := "Moonlight", artist := "Ana", genre := "Jazz", price := 20,
    formats :=
      [ { id := 1, name := "Vinyl", quantity := 9007199254740992, sku := "M-V" },
        { id := 2, name := "CD", quantity := 1, sku := "M-CD" } ] }

/-- The product `loadCatalog` groups the rows `rowsCdThenVinyl` into. -/
def moonlightProduct : Product :=
  { id := 7, title := "Moonlight", artist := "Ana", genre := "Jazz", price := 20,
    formats :=
      [ { id := 2, name := "CD", quantity := 0, sku := "M-CD" },
        { id := 1, name := "Vinyl", quantity := 5, sku := "M-V" } ] }

/-! ## `setupCatalogSearch` (app.js 160-181) -/

/-- Does the character sequence `s` start with `t`. -/
def startsWithChars : List Char → List Char → Bool
  | _, [] => true
  | [], _ :: _ => false
  | c :: cs, d :: ds => c == d && startsWithChars cs ds

/-- The search of `String.prototype.includes`: is there a position of `s` at which
`t` starts. -/
def includesChars (s t : List Char) : Bool :=
  match s with
  | [] => startsWithChars [] t
  | c :: cs => startsWithChars (c :: cs) t || includesChars cs t

/-- `s.includes(t)`. -/
def includes (s t : String) : Bool :=
  includesChars s.data t.data

/-- The `input` handler of the search box (app.js 162-180) for the text `value`,
returning what it passes on to the grid.  `toLowerCase` is
`String.prototype.toLowerCase`. -/
def catalogSearchInput (toLowerCase : String → String) (allProducts : List Product)
    (value : String) : CatalogGrid :=
  let searchTerm := toLowerCase value
  if searchTerm = "" then displayProducts allProducts
  else
    let filtered := allProducts.filter (fun product =>
      includes (toLowerCase product.title) searchTerm ||
      includes (toLowerCase product.artist) searchTerm ||
      includes (toLowerCase product.genre) searchTerm)
    displayProducts filtered

/-- The text `field` contains `term` as a substring when case is ignored: the
lower-cased term occurs somewhere inside the lower-cased field. -/
def containsIgnoringCase (toLowerCase : String → String) (field term : String) : Prop :=
  ∃ l r : List Char, (toLowerCase field).data = l ++ (toLowerCase term).data ++ r

instance (toLowerCase : String → String) (field term : String) :
    Decidable (containsIgnoringCase toLowerCase field term) :=
  decidable_of_iff ((toLowerCase term).data <:+: (toLowerCase field).data)
    ⟨fun ⟨l, r, h⟩ => ⟨l, r, h.symm⟩, fun ⟨l, r, h⟩ => ⟨l, r, h.symm⟩⟩

/-- A product matches a search term by its title, artist or genre. -/
def matchesSearch (toLowerCase : String → String) (term : String) (p : Product) : Prop :=
  containsIgnoringCase toLowerCase p.title term ∨
  containsIgnoringCase toLowerCase p.artist term ∨
  containsIgnoringCase toLowerCase p.genre term

instance (toLowerCase : String → String) (term : String) (p : Product) :
    Decidable (matchesSearch toLowerCase term p) := by
  unfold matchesSearch
  exact inferInstance

/-- Lower-casing of the ASCII letters, one character at a time. -/
def asciiLower (s : String) : String :=
  String.mk (s.data.map Char.toLower)

/-- Three products of a small catalog. -/
def sampleCatalog : List Product :=
  [ { id := 1, title := "Blue Train", artist := "John Coltrane", genre := "Jazz", price := 20,
      formats := [] },
    { id := 2, title := "Nevermind", artist := "Nirvana", genre := "Rock", price := 15,
      formats := [] },
    { id := 3, title := "Kind of Blue", artist := "Miles Davis", genre := "Jazz", price := 18,
      formats := [] } ]

/-! ## Form handlers: requests and effects -/

/-- One `{formatId, quantity}` entry of the add-product request (app.js 314-329). -/
structure FormatSelection where
  formatId : Int
  quantity : Int
deriving DecidableEq

/-- The object `productData` (app.js 339-347); `price` is a `parseFloat` result. -/
structure ProductData where
  title : String
  artist : String
  releaseDate : String
  genre : String
  label : String
  price : Option ℚ
  formats : List FormatSelection
deriving DecidableEq

/-- The object `inventoryData` (app.js 426-430): three `parseInt` results. -/
structure InventoryData where
  productId : Option Int
  formatId : Option Int
  quantity : Option Int
deriving DecidableEq

/-- One element of `orderItems`, in the shape the create-order request documents. -/
structure OrderItem where
  productId : Int
  formatId : Int
  quantity : Int
  unitPrice : ℚ
deriving DecidableEq

/-- The object `orderData` (app.js 606-609). -/
structure OrderData where
  customerId : Option Int
  items : List OrderItem
deriving DecidableEq

/-- The JSON body of a request. -/
inductive RequestBody where
  | product (data : ProductData)
  | inventory (data : InventoryData)
  | order (data : OrderData)
deriving DecidableEq

/-- One `fetch` call with a body. -/
structure Request where
  method : String
  url : String
  body : RequestBody
deriving DecidableEq

/-- The fields of a server reply the handlers read. -/
structure ServerReply where
  ok : Bool
  message : String
  productId : Int
  orderId : Int
  totalAmount : ℚ
deriving DecidableEq

/-- How a `fetch` with its `response.json()` ends: with a reply, or by throwing. -/
inductive FetchOutcome where
  | reply (r : ServerReply)
  | threw (errorMessage : String)
deriving DecidableEq

/-- The text handed to `showMessage`; numbers stay unformatted. -/
inductive MessageText where
  | text (s : String)
  | textWithId (s : String) (id : Int)
  | orderCreated (orderId : Int) (totalAmount : ℚ)
deriving DecidableEq

/-- An observable action of a submit handler, in program order. -/
inductive Effect where
  | showMessage (message : MessageText) (type : String)
  | fetch (request : Request)
  | formReset
  | closeModalAndReload (afterMs : Nat)
deriving DecidableEq

/-- The requests among the effects of a handler. -/
def requestsSent (effects : List Effect) : List Request :=
  effects.filterMap (fun e => match e with
    | .fetch r => some r
    | _ => none)

/-- The format ids a request carries in the `formats` of its product data. -/
def formatIdsOfRequest (r : Request) : List Int :=
  match r.body with
  | .product data => data.formats.map (fun f => f.formatId)
  | _ => []

/-- The messages of type `error` among the effects of a handler. -/
def errorsShown (effects : List Effect) : List MessageText :=
  effects.filterMap (fun e => match e with
    | .showMessage m type => if type = "error" then some m else none
    | _ => none)

/-- The JavaScript `parseInt(…) || 0`: `NaN` and `0` are falsy. -/
def intOrZero (x : Option Int) : Int :=
  match x with
  | none => 0
  | some v => if v = 0 then 0 else v

/-! ## `setupAddProductForm` (app.js 305-378) -/

/-- The inputs of the add-product form as the handler reads them: checkbox
states, `parseInt` results of the quantity texts, the text fields, and the
`parseFloat` result of the price text. -/
structure AddProductForm where
  formatVinyl : Bool
  vinylQty : Option Int
  formatCD : Bool
  cdQty : Option Int
  formatCassette : Bool
  cassetteQty : Option Int
  title : String
  artist : String
  releaseDate : String
  genre : String
  label : String
  price : Option ℚ
deriving DecidableEq

/-- The array `formats` collected by app.js 312-330. -/
def selectedFormats (form : AddProductForm) : List FormatSelection :=
  let formats : List FormatSelection := []
  let formats :=
    if form.formatVinyl then formats ++ [{ formatId := 1, quantity := intOrZero form.vinylQty }]
    else formats
  let formats :=
    if form.formatCD then formats ++ [{ formatId := 2, quantity := intOrZero form.cdQty }]
    else formats
  let formats :=
    if form.formatCassette then
      formats ++ [{ formatId := 3, quantity := intOrZero form.cassetteQty }]
    else formats
  formats

/-- The submit handler of the add-product form (app.js 307-377). -/
def addProductSubmit (form : AddProductForm) (server : Request → FetchOutcome) : List Effect :=
  let formats := selectedFormats form
  if formats.length = 0 then
    [.showMessage (.text "Please select at least one format") "error"]
  else
    let productData : ProductData :=
      { title := form.title
        artist := form.artist
        releaseDate := form.releaseDate
        genre := form.genre
        label := form.label
        price := form.price
        formats := formats }
    let request : Request :=
      { method := "POST", url := API_URL ++ "/products", body := .product productData }
    .fetch request ::
      match server request with
      | .reply result =>
        if result.ok then
          [ .showMessage (.textWithId "Product added successfully! ID: " result.productId)
              "success",
            .formReset,
            .closeModalAndReload 2000 ]
        else [.showMessage (.text ("Error: " ++ result.message)) "error"]
      | .threw errorMessage => [.showMessage (.text ("Error: " ++ errorMessage)) "error"]

/-! ## `setupUpdateInventoryForm` (app.js 420-455) -/

/-- The submit handler of the restock form (app.js 422-454); its arguments are
the `parseInt` results of the product id, format and new-quantity inputs. -/
def updateInventorySubmit (invProductId invFormat newQuantity : Option Int)
    (server : Request → FetchOutcome) : List Effect :=
  let inventoryData : InventoryData :=
    { productId := invProductId, formatId := invFormat, quantity := newQuantity }
  let request : Request :=
    { method := "PUT", url := API_URL ++ "/inventory", body := .inventory inventoryData }
  .fetch request ::
    match server request with
    | .reply result =>
      if result.ok then
        [ .showMessage (.text "Inventory updated successfully!") "success",
          .closeModalAndReload 2000 ]
      else [.showMessage (.text ("Error: " ++ result.message)) "error"]
    | .threw errorMessage => [.showMessage (.text ("Error: " ++ errorMessage)) "error"]

/-! ## `setupCreateOrderForm` (app.js 586-640) -/

/-- The submit handler of the order form (app.js 592-639) for the current
`orderItems` and the `parseInt` result of the customer id input. -/
def createOrderSubmit (orderItems : List OrderItem) (orderCustomerId : Option Int)
    (server : Request → FetchOutcome) : List Effect :=
  if orderItems.length = 0 then
    [.showMessage (.text "Please add at least one item to the order") "error"]
  else
    let orderData : OrderData := { customerId := orderCustomerId, items := orderItems }
    let request : Request :=
      { method := "POST", url := API_URL ++ "/orders", body := .order orderData }
    .fetch request ::
      match server request with
      | .reply result =>
        if result.ok then
          [ .showMessage (.orderCreated result.orderId result.totalAmount) "success",
            .closeModalAndReload 3000 ]
        else [.showMessage (.text ("Error: " ++ result.message)) "error"]
      | .threw errorMessage => [.showMessage (.text ("Error: " ++ errorMessage)) "error"]

/-! ## `getInventoryInfo` (app.js 723-754) -/

/-- The options of the `<select class="item-format">` built by `addOrderItem`
(app.js 684-689). -/
inductive FormatOption where
  | selectFormat
  | vinyl
  | cd
  | cassette
deriving DecidableEq

/-- The `value` attribute of an option. -/
def FormatOption.value : FormatOption → String
  | .selectFormat => ""
  | .vinyl => "1"
  | .cd => "2"
  | .cassette => "3"

/-- The text of an option. -/
def FormatOption.text : FormatOption → String
  | .selectFormat => "Select Format"
  | .vinyl => "Vinyl"
  | .cd => "CD"
  | .cassette => "Cassette"

/-- The number the loose comparison `formatId == n` converts an option's value
string to. -/
def FormatOption.toNumber : FormatOption → Int
  | .selectFormat => 0
  | .vinyl => 1
  | .cd => 2
  | .cassette => 3

/-- The format-name conditional of `getInventoryInfo` (app.js 744), loose `==`
between the select's value and a number. -/
def inventoryInfoFormatName (formatId : FormatOption) : String :=
  if formatId.toNumber = 1 then "Vinyl" else if formatId.toNumber = 2 then "CD" else "Cassette"

/-- A server that accepts every request. -/
def acceptingServer : Request → FetchOutcome :=
  fun _ => .reply { ok := true, message := "", productId := 1, orderId := 1, totalAmount := 0 }

/-- An add-product submission with the Vinyl and Cassette boxes ticked. -/
def sampleAddProductForm : AddProductForm :=
  { formatVinyl := true, vinylQty := some 5, formatCD := false, cdQty := none,
    formatCassette := true, cassetteQty := none, title := "Moonlight", artist := "Ana",
    releaseDate := "2020-01-01", genre := "Jazz", label := "Blue", price := some 20 }

/-- An add-product submission with every field filled in and no box ticked. -/
def sampleNoFormatForm : AddProductForm :=
  { sampleAddProductForm with formatVinyl := false, formatCassette := false }

/-! ## The order draft (app.js 8-10, 586-590, 675-776) -/

/-- One `.order-item` block of the order form as the handlers read it: the text
of its product id input, the chosen option of its format select, and the
texts of its quantity and price inputs. -/
structure OrderItemBlock where
  productId : String
  format : FormatOption
  inputs : OrderItemInputs
deriving DecidableEq

/-- The state the order form works on: the global `orderItems`, the blocks of
`#orderItemsList` in document order, and the number whose two-decimal text is
shown in `#orderTotal`. -/
structure OrderForm where
  orderItems : List OrderItem
  blocks : List OrderItemBlock
  orderTotal : JsNumber
deriving DecidableEq

/-- The synchronous part of `setupCreateOrderForm` (app.js 587-589): the draft
list, the blocks and the shown total are reset, whatever they were. -/
def setupCreateOrderForm (_previous : OrderForm) : OrderForm :=
  { orderItems := [], blocks := [], orderTotal := .finite 0 }

/-- `updateOrderTotal()` on the form (app.js 760-769): the total of the blocks on
screen is written to the total field. -/
def OrderForm.updateOrderTotal (s : OrderForm) : OrderForm :=
  { s with orderTotal := MusicStore.updateOrderTotal (s.blocks.map (fun b => b.inputs)) }

/-- `addOrderItem()` (app.js 675-707): one more block is appended to the list,
with an empty product id, no format chosen, quantity 1 and an empty price. -/
def OrderForm.addOrderItem (s : OrderForm) : OrderForm :=
  { s with
    blocks :=
      s.blocks ++
        [{ productId := "", format := .selectFormat,
           inputs := { quantity := some 1, price := none } }] }

/-- `removeOrderItem(button)` (app.js 713-716) for the button of block `i`. -/
def OrderForm.removeOrderItem (s : OrderForm) (i : Nat) : OrderForm :=
  OrderForm.updateOrderTotal { s with blocks := s.blocks.eraseIdx i }

/-- How the inventory lookup of `getInventoryInfo` ends. -/
inductive InventoryLookup where
  | reply (ok : Bool) (data : List InventoryRow)
  | threw (errorMessage : String)
deriving DecidableEq

/-- The text of an `alert`; numbers stay unformatted. -/
inductive AlertText where
  | text (s : String)
  | found (title artist formatName : String) (available : Int) (price : ℚ)
deriving DecidableEq

/-- `getInventoryInfo(button)` (app.js 723-754) for the button of block `i` and
the way its lookup ends: the new form state and the alerts raised. -/
def OrderForm.getInventoryInfo (s : OrderForm) (i : Nat) (lookup : InventoryLookup) :
    OrderForm × List AlertText :=
  match s.blocks.get? i with
  | none => (s, [])
  | some itemDiv =>
    if itemDiv.productId = "" ∨ itemDiv.format.value = "" then
      (s, [.text "Please select product and format first"])
    else
      match lookup with
      | .threw errorMessage => (s, [.text ("Error: " ++ errorMessage)])
      | .reply true (inv :: _) =>
        let priced : OrderItemBlock :=
          { itemDiv with inputs := { itemDiv.inputs with price := some inv.Price } }
        (OrderForm.updateOrderTotal { s with blocks := s.blocks.set i priced },
          [.found inv.Title inv.Artist (inventoryInfoFormatName itemDiv.format) inv.Quantity
            inv.Price])
      | .reply _ _ => (s, [.text "Product/format combination not found in inventory"])

/-- What can happen to the order form between its setup and a submission: the
three button functions, a direct `updateOrderTotal`, and the operator's typing,
where an `input` event on a quantity or price field runs `updateOrderTotal`
(app.js 772-776). -/
inductive DraftAction where
  | addOrderItem
  | removeOrderItem (i : Nat)
  | getInventoryInfo (i : Nat) (lookup : InventoryLookup)
  | updateOrderTotal
  | enterProductId (i : Nat) (value : String)
  | chooseFormat (i : Nat) (option : FormatOption)
  | enterQuantity (i : Nat) (reading : Option ℚ)
  | enterPrice (i : Nat) (reading : Option ℚ)
deriving DecidableEq

/-- The blocks with block `i` changed by `f`. -/
def modifyBlock (blocks : List OrderItemBlock) (i : Nat) (f : OrderItemBlock → OrderItemBlock) :
    List OrderItemBlock :=
  match blocks.get? i with
  | none => blocks
  | some b => blocks.set i (f b)

/-- The form after one action. -/
def OrderForm.step (s : OrderForm) : DraftAction → OrderForm
  | .addOrderItem => s.addOrderItem
  | .removeOrderItem i => s.removeOrderItem i
  | .getInventoryInfo i lookup => (s.getInventoryInfo i lookup).1
  | .updateOrderTotal => s.updateOrderTotal
  | .enterProductId i value =>
    { s with blocks := modifyBlock s.blocks i (fun b => { b with productId := value }) }
  | .chooseFormat i option =>
    { s with blocks := modifyBlock s.blocks i (fun b => { b with format := option }) }
  | .enterQuantity i reading =>
    OrderForm.updateOrderTotal
      { s with
        blocks :=
          modifyBlock s.blocks i (fun b => { b with inputs := { b.inputs with quantity := reading } }) }
  | .enterPrice i reading =>
    OrderForm.updateOrderTotal
      { s with
        blocks :=
          modifyBlock s.blocks i (fun b => { b with inputs := { b.inputs with price := reading } }) }

/-- The form after a sequence of actions. -/
def OrderForm.run (s : OrderForm) (actions : List DraftAction) : OrderForm :=
  actions.foldl OrderForm.step s

/-- A form state left over from an earlier use of the page. -/
def usedOrderForm : OrderForm :=
  { orderItems := [{ productId := 1, formatId := 1, quantity := 2, unitPrice := 20 }],
    blocks := [], orderTotal := .finite 40 }

/-- An operator session: two lines are added, the first is filled in and priced
by a lookup, the second is given a quantity. -/
def sampleSession : List DraftAction :=
  [ .addOrderItem, .enterProductId 0 "7", .chooseFormat 0 .vinyl,
    .getInventoryInfo 0 (.reply true rowsCdThenVinyl), .enterQuantity 0 (some 3),
    .addOrderItem, .enterQuantity 1 (some 2) ]

/-! ## Format identifiers as JavaScript values -/

/-- A value a row's `FormatID` property can hold once the JSON reply is parsed;
`composite` is an array or object, `undefined` a missing property. -/
inductive JsValue where
  | number (n : ℚ)
  | string (s : String)
  | boolean (b : Bool)
  | null
  | composite
  | undefined
deriving DecidableEq

/-- The conditional `id === 1 ? "Vinyl" : id === 2 ? "CD" : "Cassette"` of
`loadCatalog` (app.js 64-69) and `loadProductDetails` (app.js 514-515) on an
arbitrary value: strict equality with a number holds for that number only. -/
def formatNameOfValue (formatID : JsValue) : String :=
  if formatID = .number 1 then "Vinyl" else if formatID = .number 2 then "CD" else "Cassette"

/-! ## Order of first appearance -/

/-- The distinct values of a list, in the order of their first appearance. -/
def firstAppearances : List Int → List Int
  | [] => []
  | x :: xs => x :: (firstAppearances xs).filter (fun y => y ≠ x)

/-- The number of format entries over all products of a map. -/
def ProductMap.formatCount (m : ProductMap) : Nat :=
  (m.values.map (fun p => p.formats.length)).sum

/-- Five rows of three products, the rows of products 7 and 3 interleaved. -/
def rowsInterleaved : List InventoryRow :=
  [ { ProductID := 7, Title := "Moonlight", Artist := "Ana", Genre := "Jazz", Price := 20,
      FormatID := 2, Quantity := 0, SKU := "M-CD" },
    { ProductID := 3, Title := "Dawn", Artist := "Bo", Genre := "Rock", Price := 15,
      FormatID := 1, Quantity := 4, SKU := "D-V" },
    { ProductID := 7, Title := "Moonlight (reissue)", Artist := "Ana", Genre := "Jazz",
      Price := 25, FormatID := 1, Quantity := 5, SKU := "M-V" },
    { ProductID := 9, Title := "Dusk", Artist := "Cy", Genre := "Folk", Price := 12,
      FormatID := 3, Quantity := 1, SKU := "K-C" },
    { ProductID := 3, Title := "Dawn", Artist := "Bo", Genre := "Rock", Price := 15,
      FormatID := 3, Quantity := 2, SKU := "D-C" } ]

/-! ## The insertion-ordered map -/

theorem ProductMap.has_iff (m : ProductMap) (k : Int) : m.has k = true ↔ k ∈ m.keys := by
  simp [ProductMap.has, ProductMap.keys]

theorem ProductMap.get_of_mem {m : ProductMap} (hnd : m.keys.Nodup) {k : Int} {p : Product}
    (h : (k, p) ∈ m) : m.get k = some p := by
  induction m with
  | nil => cases h
  | cons e m ih =>
    simp only [ProductMap.keys, List.map_cons, List.nodup_cons] at hnd
    rcases List.mem_cons.1 h with h | h
    · subst h
      simp [ProductMap.get]
    · have hne : e.1 ≠ k := by
        intro hek
        apply hnd.1
        rw [hek]
        exact List.mem_map_of_mem Prod.fst h
      have := ih hnd.2 h
      simp only [ProductMap.get] at this ⊢
      rw [List.find?_cons_of_neg]
      · exact this
      · simpa using hne

theorem ProductMap.exists_mem_of_has {m : ProductMap} {k : Int} (h : m.has k = true) :
    ∃ p, (k, p) ∈ m := by
  simp only [ProductMap.has, List.any_eq_true, beq_iff_eq] at h
  obtain ⟨e, he, hk⟩ := h
  exact ⟨e.2, by rw [← hk]; exact he⟩

theorem ProductMap.set_append_self (m : ProductMap) (k : Int) (v w : Product)
    (h : m.has k = false) : ProductMap.set (m ++ [(k, v)]) k w = m ++ [(k, w)] := by
  have hne : ∀ e ∈ m, e.1 ≠ k := by
    intro e he hk
    have : m.has k = true := by
      simp only [ProductMap.has, List.any_eq_true, beq_iff_eq]
      exact ⟨e, he, hk⟩
    rw [h] at this
    cases this
  have hhas : ProductMap.has (m ++ [(k, v)]) k = true := by
    simp [ProductMap.has]
  rw [ProductMap.set, if_pos hhas, List.map_append]
  congr 1
  · conv_rhs => rw [← List.map_id m]
    apply List.map_congr_left
    intro e he
    simp [hne e he]
  · simp

theorem ProductMap.get_append_self (m : ProductMap) (k : Int) (v : Product)
    (h : m.has k = false) : ProductMap.get (m ++ [(k, v)]) k = some v := by
  have hnone : m.find? (fun e => e.1 == k) = none := by
    rw [List.find?_eq_none]
    intro e he hk
    have : m.has k = true := by
      simp only [ProductMap.has, List.any_eq_true]
      exact ⟨e, he, hk⟩
    rw [h] at this
    cases this
  simp [ProductMap.get, List.find?_append, hnone]

/-- On a map without repeated keys one iteration never throws and is `groupStepT`. -/
theorem groupStep_eq (m : ProductMap) (item : InventoryRow) (hnd : m.keys.Nodup) :
    groupStep m item = some (groupStepT m item) := by
  cases hhas : m.has item.ProductID with
  | true =>
    obtain ⟨p, hp⟩ := ProductMap.exists_mem_of_has hhas
    have hget := ProductMap.get_of_mem hnd hp
    simp only [groupStep, groupStepT, hhas, Bool.not_true, if_false, hget, if_true,
      ProductMap.set, Bool.false_eq_true]
    congr 1
    apply List.map_congr_left
    intro e he
    by_cases hk : e.1 = item.ProductID
    · have he2 : m.get item.ProductID = some e.2 := by
        apply ProductMap.get_of_mem hnd
        rw [← hk]
        exact he
      rw [hget] at he2
      injection he2 with he2
      simp [hk, he2]
    · simp [hk]
  | false =>
    simp only [groupStep, groupStepT, hhas, Bool.not_false, if_true, Bool.false_eq_true,
      if_false]
    have hset : m.set item.ProductID (newProduct item) = m ++ [(item.ProductID, newProduct item)] := by
      simp [ProductMap.set, hhas]
    rw [hset, ProductMap.get_append_self m _ _ hhas]
    simp only [ProductMap.set_append_self m _ _ _ hhas]
    rfl

theorem groupStepT_keys (m : ProductMap) (item : InventoryRow) :
    (groupStepT m item).keys =
      if item.ProductID ∈ m.keys then m.keys else m.keys ++ [item.ProductID] := by
  by_cases h : item.ProductID ∈ m.keys
  · have hhas := (ProductMap.has_iff m _).2 h
    rw [if_pos h, groupStepT, if_pos hhas]
    simp only [ProductMap.keys, List.map_map]
    apply List.map_congr_left
    intro e _
    by_cases hk : e.1 = item.ProductID <;> simp [hk]
  · have hhas : m.has item.ProductID = false := by
      cases hh : m.has item.ProductID with
      | false => rfl
      | true => exact absurd ((ProductMap.has_iff m _).1 hh) h
    rw [if_neg h, groupStepT, hhas]
    simp [ProductMap.keys]

theorem groupStepT_nodup (m : ProductMap) (item : InventoryRow) (hnd : m.keys.Nodup) :
    (groupStepT m item).keys.Nodup := by
  rw [groupStepT_keys]
  split
  · exact hnd
  · rename_i h
    rw [List.nodup_append]
    refine ⟨hnd, List.nodup_singleton _, ?_⟩
    intro a ha hb
    rw [List.mem_singleton] at hb
    exact h (hb ▸ ha)

/-! ## The grouping loop -/

theorem groupRowsT_append (rows : List InventoryRow) (r : InventoryRow) :
    groupRowsT (rows ++ [r]) = groupStepT (groupRowsT rows) r := by
  simp [groupRowsT, List.foldl_append]

theorem groupRowsT_nodup (rows : List InventoryRow) : (groupRowsT rows).keys.Nodup := by
  induction rows using List.reverseRecOn with
  | nil => simp [groupRowsT, ProductMap.keys]
  | append_singleton rows r ih =>
    rw [groupRowsT_append]
    exact groupStepT_nodup _ _ ih

/-- The loop never throws: it returns the map built by `groupStepT`. -/
theorem groupRows_eq (rows : List InventoryRow) : groupRows rows = some (groupRowsT rows) := by
  induction rows using List.reverseRecOn with
  | nil => rfl
  | append_singleton rows r ih =>
    rw [groupRows, List.foldlM_append, ← groupRows, ih, groupRowsT_append]
    simp [groupStep_eq _ _ (groupRowsT_nodup rows)]

theorem loadCatalogProducts_eq (rows : List InventoryRow) :
    loadCatalogProducts rows = some (groupRowsT rows).values := by
  simp [loadCatalogProducts, groupRows_eq]

theorem groupRowsT_mem_keys (rows : List InventoryRow) (k : Int) :
    k ∈ (groupRowsT rows).keys ↔ ∃ r ∈ rows, r.ProductID = k := by
  induction rows using List.reverseRecOn with
  | nil => simp [groupRowsT, ProductMap.keys]
  | append_singleton rows r ih =>
    rw [groupRowsT_append, groupStepT_keys]
    by_cases h : r.ProductID ∈ (groupRowsT rows).keys
    · rw [if_pos h, ih]
      constructor
      · rintro ⟨x, hx, hk⟩
        exact ⟨x, List.mem_append_left _ hx, hk⟩
      · rintro ⟨x, hx, hk⟩
        rcases List.mem_append.1 hx with hx | hx
        · exact ⟨x, hx, hk⟩
        · rw [List.mem_singleton] at hx
          subst hx
          exact ih.1 (hk ▸ h)
    · rw [if_neg h, List.mem_append, ih, List.mem_singleton]
      constructor
      · rintro (⟨x, hx, hk⟩ | hk)
        · exact ⟨x, List.mem_append_left _ hx, hk⟩
        · exact ⟨r, by simp, hk.symm⟩
      · rintro ⟨x, hx, hk⟩
        rcases List.mem_append.1 hx with hx | hx
        · exact Or.inl ⟨x, hx, hk⟩
        · rw [List.mem_singleton] at hx
          subst hx
          exact Or.inr hk.symm

/-- Every entry of the grouped map is keyed by its product's id and holds, as
formats, the entries of the rows with that id in arrival order. -/
theorem groupRowsT_entry (rows : List InventoryRow) :
    ∀ e ∈ groupRowsT rows,
      e.2.id = e.1 ∧
      e.2.formats = (rows.filter (fun r => r.ProductID = e.1)).map formatEntry := by
  induction rows using List.reverseRecOn with
  | nil => simp [groupRowsT]
  | append_singleton rows r ih =>
    intro e he
    rw [groupRowsT_append] at he
    cases hhas : (groupRowsT rows).has r.ProductID with
    | true =>
      rw [groupStepT, if_pos hhas, List.mem_map] at he
      obtain ⟨e0, he0, hfe⟩ := he
      obtain ⟨hid, hfm⟩ := ih e0 he0
      by_cases hk : e0.1 = r.ProductID
      · simp only [hk, beq_self_eq_true, if_true] at hfe
        subst hfe
        simp only [List.filter_append, List.map_append]
        refine ⟨by rw [hid, hk], ?_⟩
        rw [hfm, hk]
        simp
      · have hk2 : ¬ r.ProductID = e0.1 := fun h => hk h.symm
        simp only [beq_iff_eq, hk, if_false] at hfe
        subst hfe
        refine ⟨hid, ?_⟩
        rw [hfm]
        simp [List.filter_append, hk2]
    | false =>
      rw [groupStepT, hhas] at he
      simp only [Bool.false_eq_true, if_false, List.mem_append, List.mem_singleton] at he
      have hnk : r.ProductID ∉ (groupRowsT rows).keys := by
        intro hmem
        rw [(ProductMap.has_iff _ _).2 hmem] at hhas
        cases hhas
      rcases he with he | he
      · obtain ⟨hid, hfm⟩ := ih e he
        have hk2 : ¬ r.ProductID = e.1 := by
          intro h
          apply hnk
          rw [h]
          exact List.mem_map_of_mem Prod.fst he
        refine ⟨hid, ?_⟩
        rw [hfm]
        simp [List.filter_append, hk2]
      · subst he
        have hnone : rows.filter (fun x => x.ProductID = r.ProductID) = [] := by
          rw [List.filter_eq_nil_iff]
          intro x hx hxk
          apply hnk
          rw [groupRowsT_mem_keys]
          exact ⟨x, hx, by simpa using hxk⟩
        refine ⟨rfl, ?_⟩
        simp [List.filter_append, hnone, newProduct]

theorem groupRowsT_ids (rows : List InventoryRow) :
    (groupRowsT rows).values.map (fun p => p.id) = (groupRowsT rows).keys := by
  simp only [ProductMap.values, ProductMap.keys, List.map_map]
  apply List.map_congr_left
  intro e he
  exact (groupRowsT_entry rows e he).1

theorem groupRowsT_formats (rows : List InventoryRow) :
    ∀ p ∈ (groupRowsT rows).values,
      p.formats = (rows.filter (fun r => r.ProductID = p.id)).map formatEntry := by
  intro p hp
  simp only [ProductMap.values, List.mem_map] at hp
  obtain ⟨e, he, rfl⟩ := hp
  obtain ⟨hid, hfm⟩ := groupRowsT_entry rows e he
  rw [hfm, hid]

theorem displayProducts_cardList (products : List Product) :
    (displayProducts products).cardList = products.map productCard := by
  cases products with
  | nil => rfl
  | cons p ps => simp [displayProducts, CatalogGrid.cardList]

/-! ## Rounding to binary64 -/

theorem roundHalfEven_intCast (z : ℤ) : roundHalfEven (z : ℚ) = z := by
  simp [roundHalfEven]

theorem roundHalfEven_error (x : ℚ) : |(roundHalfEven x : ℚ) - x| ≤ 1 / 2 := by
  have h1 : (⌊x⌋ : ℚ) ≤ x := Int.floor_le x
  have h2 : x < ⌊x⌋ + 1 := Int.lt_floor_add_one x
  unfold roundHalfEven
  split
  · rw [abs_le]
    constructor <;> linarith
  · split
    · push_cast
      rw [abs_le]
      constructor <;> linarith
    · have h3 : x - ⌊x⌋ = 1 / 2 := by
        rename_i ha hb
        linarith [not_lt.1 ha, not_lt.1 hb]
      split
      · rw [abs_le]
        constructor <;> linarith
      · push_cast
        rw [abs_le]
        constructor <;> linarith

theorem two_zpow_pos (e : ℤ) : (0 : ℚ) < 2 ^ e := zpow_pos (by norm_num) e

/-- A nonzero value on the grid of its own binade, below the overflow threshold, is
kept by the rounding. -/
theorem round64_of_grid (x : ℚ) (z : ℤ) (hz : x / 2 ^ ulpExponent x = z)
    (hlt : |x| < 2 ^ 1024) : round64 x = .finite x := by
  by_cases hx : x = 0
  · simp [round64, hx]
  · have hy : (roundHalfEven (x / 2 ^ ulpExponent x) : ℚ) * 2 ^ ulpExponent x = x := by
      rw [hz, roundHalfEven_intCast, ← hz]
      field_simp
    have hxlt := abs_lt.1 hlt
    simp only [round64, hx, if_false, hy]
    rw [if_neg (by linarith), if_neg (by linarith)]

theorem ulpExponent_of_log (x : ℚ) (k : ℤ) (hk : Int.log 2 |x| = k) (h0 : -1022 ≤ k) :
    ulpExponent x = k - 52 := by
  rw [ulpExponent, hk]
  exact max_eq_left (by omega)

/-- Integers of absolute value below 2^53 are binary64 numbers. -/
theorem round64_intCast (n : ℤ) (h : |n| < 2 ^ 53) : round64 (n : ℚ) = .finite n := by
  by_cases hn : n = 0
  · simp [round64, hn]
  have hpos : (0 : ℚ) < |(n : ℚ)| := abs_pos.2 (by exact_mod_cast hn)
  have hone : (1 : ℚ) ≤ |(n : ℚ)| := by
    have : (1 : ℤ) ≤ |n| := Int.one_le_abs hn
    exact_mod_cast this
  have hlt : |(n : ℚ)| < 2 ^ (53 : ℤ) := by
    have h' : ((|n| : ℤ) : ℚ) < 2 ^ 53 := by exact_mod_cast h
    rw [Int.cast_abs] at h'
    have h2 : (2 : ℚ) ^ (53 : ℤ) = 2 ^ 53 := by norm_num
    rw [h2]
    exact h'
  have hk0 : 0 ≤ Int.log 2 |(n : ℚ)| := by
    rw [← Int.zpow_le_iff_le_log (by norm_num) hpos]
    simpa using hone
  have hk1 : Int.log 2 |(n : ℚ)| < 53 := by
    rw [← Int.lt_zpow_iff_log_lt (by norm_num) hpos]
    exact hlt
  obtain ⟨j, hj⟩ : ∃ j : ℕ, (j : ℤ) = 52 - Int.log 2 |(n : ℚ)| :=
    ⟨(52 - Int.log 2 |(n : ℚ)|).toNat, Int.toNat_of_nonneg (by omega)⟩
  have he : ulpExponent (n : ℚ) = -(j : ℤ) := by
    rw [ulpExponent_of_log _ _ rfl (by omega), hj]
    ring
  apply round64_of_grid (n : ℚ) (n * 2 ^ j)
  · rw [he, zpow_neg, zpow_natCast]
    push_cast
    field_simp
  · calc |(n : ℚ)| < 2 ^ (53 : ℤ) := hlt
      _ ≤ 2 ^ 1024 := by norm_num


theorem ulp_le (x : ℚ) (hx : x ≠ 0) :
    (2 : ℚ) ^ ulpExponent x ≤ |x| / 2 ^ 52 + 1 / 2 ^ 1074 := by
  have hpos : (0 : ℚ) < |x| := abs_pos.2 hx
  have hlog : (2 : ℚ) ^ Int.log 2 |x| ≤ |x| := Int.zpow_log_le_self (by norm_num) hpos
  have h52 : (0 : ℚ) < 2 ^ 52 := by positivity
  have h1074 : (0 : ℚ) < 1 / 2 ^ 1074 := by positivity
  have hdiv : (0 : ℚ) ≤ |x| / 2 ^ 52 := by positivity
  rcases max_choice (Int.log 2 |x| - 52) (-1074) with h | h
  · rw [ulpExponent, h, zpow_sub₀ (by norm_num)]
    have h2 : (2 : ℚ) ^ (52 : ℤ) = 2 ^ 52 := by norm_num
    rw [h2]
    have : (2 : ℚ) ^ Int.log 2 |x| / 2 ^ 52 ≤ |x| / 2 ^ 52 :=
      div_le_div_of_nonneg_right hlog h52.le
    linarith
  · rw [ulpExponent, h]
    have h2 : (2 : ℚ) ^ (-1074 : ℤ) = 1 / 2 ^ 1074 := by
      rw [zpow_neg, one_div]
      norm_cast
    rw [h2]
    linarith

/-- The rounding of a value below 2^1023 in absolute value is finite and off by at
most half a unit in the last place. -/
theorem round64_error (x : ℚ) (hx : |x| < 2 ^ 1023) :
    ∃ y, round64 x = .finite y ∧ |y - x| ≤ |x| / 2 ^ 53 + 1 / 2 ^ 1075 := by
  by_cases h0 : x = 0
  · exact ⟨0, by simp [round64, h0], by simp [h0]⟩
  have hepos := two_zpow_pos (ulpExponent x)
  have hm := roundHalfEven_error (x / 2 ^ ulpExponent x)
  have hulp := ulp_le x h0
  have hyx : (roundHalfEven (x / 2 ^ ulpExponent x) : ℚ) * 2 ^ ulpExponent x - x =
      ((roundHalfEven (x / 2 ^ ulpExponent x) : ℚ) - x / 2 ^ ulpExponent x) *
        2 ^ ulpExponent x := by
    field_simp
  have herr : |(roundHalfEven (x / 2 ^ ulpExponent x) : ℚ) * 2 ^ ulpExponent x - x| ≤
      |x| / 2 ^ 53 + 1 / 2 ^ 1075 := by
    rw [hyx, abs_mul, abs_of_pos hepos]
    have h1 : |(roundHalfEven (x / 2 ^ ulpExponent x) : ℚ) - x / 2 ^ ulpExponent x| *
        2 ^ ulpExponent x ≤ 1 / 2 * 2 ^ ulpExponent x :=
      mul_le_mul_of_nonneg_right hm hepos.le
    have h2 : |x| / 2 ^ 53 = 1 / 2 * (|x| / 2 ^ 52) := by ring
    have h3 : (1 : ℚ) / 2 ^ 1075 = 1 / 2 * (1 / 2 ^ 1074) := by ring
    rw [h2, h3]
    linarith
  have habs := abs_le.1 herr
  have hxx := abs_lt.1 hx
  have hxnn : (0 : ℚ) ≤ |x| := abs_nonneg x
  have hle := le_abs_self x
  have hge := neg_abs_le x
  have hP : (1 : ℚ) ≤ 2 ^ 1023 := one_le_pow₀ (by norm_num)
  have h1024 : (2 : ℚ) ^ 1024 = 2 * 2 ^ 1023 := by ring
  have hsmall1 : |x| / 2 ^ 53 ≤ |x| / 2 := by
    apply div_le_div_of_nonneg_left hxnn (by norm_num)
    norm_num
  have hsmall2 : (1 : ℚ) / 2 ^ 1075 ≤ 1 / 2 := by
    apply div_le_div_of_nonneg_left (by norm_num) (by norm_num)
    calc (2 : ℚ) = 2 ^ 1 := by norm_num
      _ ≤ 2 ^ 1075 := pow_le_pow_right₀ (by norm_num) (by norm_num)
  refine ⟨_, ?_, herr⟩
  simp only [round64, h0, if_false]
  rw [if_neg (by rw [h1024]; linarith), if_neg (by rw [h1024]; linarith)]


theorem log_two_eq (x : ℚ) (k : ℤ) (h1 : (2 : ℚ) ^ k ≤ |x|) (h2 : |x| < 2 ^ (k + 1)) :
    Int.log 2 |x| = k := by
  have hpos : (0 : ℚ) < |x| := lt_of_lt_of_le (two_zpow_pos k) h1
  have ha : k ≤ Int.log 2 |x| := (Int.zpow_le_iff_le_log (by norm_num) hpos).1 (by exact_mod_cast h1)
  have hb : Int.log 2 |x| < k + 1 :=
    (Int.lt_zpow_iff_log_lt (by norm_num) hpos).1 (by exact_mod_cast h2)
  omega

theorem roundHalfEven_down (x : ℚ) (f : ℤ) (h1 : (f : ℚ) ≤ x) (h2 : x - f < 1 / 2) :
    roundHalfEven x = f := by
  have hf : ⌊x⌋ = f := Int.floor_eq_iff.2 ⟨h1, by linarith⟩
  unfold roundHalfEven
  rw [hf, if_pos h2]

theorem roundHalfEven_up (x : ℚ) (f : ℤ) (h1 : 1 / 2 < x - f) (h2 : x < f + 1) :
    roundHalfEven x = f + 1 := by
  have hf : ⌊x⌋ = f := Int.floor_eq_iff.2 ⟨by linarith, h2⟩
  have h3 : ¬ x - f < 1 / 2 := by linarith
  unfold roundHalfEven
  rw [hf, if_neg h3, if_pos h1]

theorem roundHalfEven_tie (x : ℚ) (f : ℤ) (h : x - f = 1 / 2) :
    roundHalfEven x = if f % 2 = 0 then f else f + 1 := by
  have hf : ⌊x⌋ = f := Int.floor_eq_iff.2 ⟨by linarith, by linarith⟩
  have h3 : ¬ x - f < 1 / 2 := by linarith
  have h4 : ¬ 1 / 2 < x - f := by linarith
  simp only [roundHalfEven, hf, h3, h4, if_false]

/-- A rounding checked from the binade `k` of `x` and the rounded significand `m`. -/
theorem round64_eq_of (x y : ℚ) (k m : ℤ) (h1 : (2 : ℚ) ^ k ≤ |x|) (h2 : |x| < 2 ^ (k + 1))
    (hk : -1022 ≤ k) (hm : roundHalfEven (x / 2 ^ (k - 52)) = m)
    (hy : (m : ℚ) * 2 ^ (k - 52) = y) (hlt : |y| < 2 ^ 1024) : round64 x = .finite y := by
  have hx : x ≠ 0 := by
    intro h
    rw [h, abs_zero] at h1
    exact absurd h1 (not_le.2 (two_zpow_pos k))
  have he : ulpExponent x = k - 52 := ulpExponent_of_log x k (log_two_eq x k h1 h2) hk
  have hyy := abs_lt.1 hlt
  simp only [round64, hx, if_false, he, hm, hy]
  rw [if_neg (by linarith), if_neg (by linarith)]

theorem round64_two_pow_53 : round64 9007199254740992 = .finite 9007199254740992 := by
  apply round64_eq_of _ _ 53 4503599627370496
  · norm_num
  · norm_num
  · norm_num
  · apply roundHalfEven_down
    · norm_num
    · norm_num
  · norm_num
  · norm_num

theorem round64_two_pow_53_add_one : round64 9007199254740993 = .finite 9007199254740992 := by
  apply round64_eq_of _ _ 53 4503599627370496
  · norm_num
  · norm_num
  · norm_num
  · rw [roundHalfEven_tie _ 4503599627370496 (by norm_num)]
    norm_num
  · norm_num
  · norm_num

theorem round64_one_tenth : round64 (1 / 10) = .finite (3602879701896397 / 36028797018963968) := by
  apply round64_eq_of _ _ (-4) 7205759403792794
  · rw [abs_of_pos (by norm_num)]
    norm_num
  · rw [abs_of_pos (by norm_num)]
    norm_num
  · norm_num
  · rw [roundHalfEven_up _ 7205759403792793 (by norm_num) (by norm_num)]
    norm_num
  · norm_num
  · rw [abs_of_pos (by norm_num)]
    norm_num

theorem round64_three_tenths :
    round64 (3 * (3602879701896397 / 36028797018963968)) =
      .finite (1351079888211149 / 4503599627370496) := by
  apply round64_eq_of _ _ (-2) 5404319552844596
  · rw [abs_of_pos (by norm_num)]
    norm_num
  · rw [abs_of_pos (by norm_num)]
    norm_num
  · norm_num
  · rw [roundHalfEven_tie _ 5404319552844595 (by norm_num)]
    norm_num
  · norm_num
  · rw [abs_of_pos (by norm_num)]
    norm_num

/-! ## Claims -/

/-! ## Sums of safe integers -/

theorem ofInt_safe (n : ℤ) (h : |n| < 2 ^ 53) : JsNumber.ofInt n = .finite n :=
  round64_intCast n h

theorem jsAdd_safe (a b : ℤ) (h : |a + b| < 2 ^ 53) :
    jsAdd (.finite a) (.finite b) = .finite ((a + b : ℤ) : ℚ) := by
  have hr := round64_intCast (a + b) h
  simp only [jsAdd]
  rw [← hr]
  push_cast
  rfl

theorem sum_abs_nonneg {α : Type} (f : α → ℤ) (l : List α) :
    0 ≤ (l.map (fun x => |f x|)).sum := by
  apply List.sum_nonneg
  intro y hy
  rw [List.mem_map] at hy
  obtain ⟨x, _, rfl⟩ := hy
  exact abs_nonneg _

/-- Adding up integers from the left in binary64 is exact while the absolute
values met so far stay below 2^53. -/
theorem foldl_jsAdd_safe {α : Type} (f : α → ℤ) (l : List α) (a : ℤ)
    (h : |a| + (l.map (fun x => |f x|)).sum < 2 ^ 53) :
    l.foldl (fun sum x => jsAdd sum (JsNumber.ofInt (f x))) (.finite a) =
      .finite ((a + (l.map f).sum : ℤ) : ℚ) := by
  induction l generalizing a with
  | nil => simp
  | cons x l ih =>
    have hnn := sum_abs_nonneg f l
    simp only [List.map_cons, List.sum_cons] at h
    have habs := abs_nonneg a
    have hx : |f x| < 2 ^ 53 := by linarith
    have htri := abs_add a (f x)
    have hax : |a + f x| < 2 ^ 53 := by linarith
    rw [List.foldl_cons, ofInt_safe _ hx, jsAdd_safe _ _ hax, ih (a + f x) (by linarith)]
    simp [add_assoc]

theorem totalStock_safe (product : Product)
    (h : (product.formats.map (fun f => |f.quantity|)).sum < 2 ^ 53) :
    totalStock product = .finite ((product.formats.map (fun f => f.quantity)).sum : ℤ) := by
  have hf := foldl_jsAdd_safe (fun f : FormatEntry => f.quantity) product.formats 0
    (by simpa using h)
  simp only [totalStock]
  have h0 : JsNumber.finite 0 = .finite ((0 : ℤ) : ℚ) := by simp
  rw [h0, hf]
  simp

theorem detailsTotalStock_safe (rows : List InventoryRow)
    (h : (rows.map (fun r => |r.Quantity|)).sum < 2 ^ 53) :
    detailsTotalStock rows = .finite ((rows.map (fun r => r.Quantity)).sum : ℤ) := by
  have hf := foldl_jsAdd_safe (fun r : InventoryRow => r.Quantity) rows 0 (by simpa using h)
  simp only [detailsTotalStock]
  have h0 : JsNumber.finite 0 = .finite ((0 : ℤ) : ℚ) := by simp
  rw [h0, hf]
  simp

theorem totalStock_pair (p : Product) (f1 f2 : FormatEntry) (h : p.formats = [f1, f2]) :
    totalStock p =
      jsAdd (jsAdd (.finite 0) (JsNumber.ofInt f1.quantity)) (JsNumber.ofInt f2.quantity) := by
  simp only [totalStock, h, List.foldl_cons, List.foldl_nil]

theorem detailsTotalStock_pair (r1 r2 : InventoryRow) :
    detailsTotalStock [r1, r2] =
      jsAdd (jsAdd (.finite 0) (JsNumber.ofInt r1.Quantity)) (JsNumber.ofInt r2.Quantity) := by
  simp only [detailsTotalStock, List.foldl_cons, List.foldl_nil]

/-- In binary64, 0 + 2^53 + 1 is 2^53. -/
theorem two_pow_53_add_one_rounds :
    jsAdd (jsAdd (.finite 0) (JsNumber.ofInt 9007199254740992)) (JsNumber.ofInt 1) =
      .finite 9007199254740992 := by
  have e1 : JsNumber.ofInt 9007199254740992 = .finite 9007199254740992 := by
    simp only [JsNumber.ofInt, Int.cast_ofNat]
    exact round64_two_pow_53
  have e2 : JsNumber.ofInt 1 = .finite 1 := by
    have h1 := round64_intCast 1 (by norm_num)
    simp only [JsNumber.ofInt]
    rw [h1]
    simp
  have a1 : jsAdd (.finite 0) (.finite 9007199254740992) = .finite 9007199254740992 := by
    simp only [jsAdd, zero_add]
    exact round64_two_pow_53
  have a2 : jsAdd (.finite 9007199254740992) (.finite 1) = .finite 9007199254740992 := by
    simp only [jsAdd]
    norm_num
    exact round64_two_pow_53_add_one
  rw [e1, e2, a1, a2]

theorem totalStock_hugeStockProduct :
    totalStock hugeStockProduct = .finite 9007199254740992 := by
  rw [totalStock_pair hugeStockProduct _ _ rfl]
  exact two_pow_53_add_one_rounds

theorem detailsTotalStock_rowsHugeStock :
    detailsTotalStock rowsHugeStock = .finite 9007199254740992 := by
  rw [rowsHugeStock, detailsTotalStock_pair]
  exact two_pow_53_add_one_rounds

/-- C1, as stated, fails: for two rows of one product with the quantities 2^53 and
1 the total stock on the card, and the one `loadProductDetails` shows, is 2^53,
not the sum 2^53 + 1. -/
theorem C1_counterexample_total_stock_is_rounded :
    loadCatalogProducts rowsHugeStock = some [hugeStockProduct] ∧
      (displayProducts [hugeStockProduct]).cardList.map (fun c => c.totalStock) =
        [.finite 9007199254740992] ∧
      ((rowsHugeStock.filter (fun r => r.ProductID = hugeStockProduct.id)).map
        (fun r => r.Quantity)).sum = 9007199254740993 ∧
      (loadProductDetails rowsHugeStock).map (fun d => d.totalStock) =
        some (.finite 9007199254740992) := by
  refine ⟨rfl, ?_, by decide, ?_⟩
  · rw [displayProducts_cardList]
    simp only [List.map_cons, List.map_nil, productCard]
    rw [totalStock_hugeStockProduct]
  · show some (detailsTotalStock rowsHugeStock) = _
    rw [detailsTotalStock_rowsHugeStock]

/-- C1, amended: for every list of raw rows `loadCatalog` yields a product list,
and for each product whose rows have quantities with absolute values adding up to
less than 2^53 the total stock `displayProducts` puts on its card is the sum of
`Quantity` over all input rows with its product id, zero quantities included;
under the same bound on the rows it is given, `loadProductDetails` shows their
sum. -/
theorem C1_totalStock_is_sum_below_two_pow_53 (rows : List InventoryRow) :
    (∃ products, loadCatalogProducts rows = some products ∧
      (displayProducts products).cardList = products.map productCard ∧
      ∀ p ∈ products,
        ((rows.filter (fun r => r.ProductID = p.id)).map (fun r => |r.Quantity|)).sum < 2 ^ 53 →
        (productCard p).totalStock =
          .finite
            (((rows.filter (fun r => r.ProductID = p.id)).map (fun r => r.Quantity)).sum : ℤ)) ∧
    ((rows.map (fun r => |r.Quantity|)).sum < 2 ^ 53 →
      (loadProductDetails rows).map (fun d => d.totalStock) =
        rows.head?.map
          (fun _ => JsNumber.finite ((rows.map (fun r => r.Quantity)).sum : ℤ))) := by
  refine ⟨⟨_, loadCatalogProducts_eq rows, displayProducts_cardList _, ?_⟩, ?_⟩
  · intro p hp hsafe
    have hfm := groupRowsT_formats rows p hp
    have hq : p.formats.map (fun f => f.quantity) =
        (rows.filter (fun r => r.ProductID = p.id)).map (fun r => r.Quantity) := by
      rw [hfm, List.map_map]
      rfl
    have hqa : p.formats.map (fun f => |f.quantity|) =
        (rows.filter (fun r => r.ProductID = p.id)).map (fun r => |r.Quantity|) := by
      rw [hfm, List.map_map]
      rfl
    show totalStock p = _
    rw [totalStock_safe p (by rw [hqa]; exact hsafe), hq]
  · intro hsafe
    cases rows with
    | nil => rfl
    | cons r rs =>
      simp only [loadProductDetails, Option.map_some', List.head?_cons]
      rw [detailsTotalStock_safe _ hsafe]

/-- C1 at the two rows of one product with quantities 0 and 5: the bound holds and
the details pane shows the total 5. -/
theorem C1_moonlight_witness :
    (rowsCdThenVinyl.map (fun r => |r.Quantity|)).sum < 2 ^ 53 ∧
      (loadProductDetails rowsCdThenVinyl).map (fun d => d.totalStock) =
        some (.finite 5) := by
  have hb : (rowsCdThenVinyl.map (fun r => |r.Quantity|)).sum < 2 ^ 53 := by decide
  refine ⟨hb, ?_⟩
  rw [(C1_totalStock_is_sum_below_two_pow_53 rowsCdThenVinyl).2 hb]
  simp [rowsCdThenVinyl]

/-- C2: the grouping of `loadCatalog` yields exactly one product per distinct
`ProductID` of the rows: no two products share an id, and an id has a product if
and only if some row carries it. -/
theorem C2_one_product_per_distinct_id (rows : List InventoryRow) :
    ∃ products, loadCatalogProducts rows = some products ∧
      (products.map (fun p => p.id)).Nodup ∧
      ∀ k : Int, k ∈ products.map (fun p => p.id) ↔ ∃ r ∈ rows, r.ProductID = k := by
  refine ⟨_, loadCatalogProducts_eq rows, ?_, ?_⟩
  · rw [groupRowsT_ids]
    exact groupRowsT_nodup rows
  · intro k
    rw [groupRowsT_ids]
    exact groupRowsT_mem_keys rows k



/-! ## Order totals -/

theorem jsOrZero_finite (v : ℚ) : jsOrZero (.finite v) = .finite v := by
  by_cases h : v = 0
  · simp [jsOrZero, h]
  · simp [jsOrZero, h]

theorem jsOrZero_round64 (x : ℚ) : jsOrZero (round64 x) = round64 x := by
  unfold round64
  split
  · exact jsOrZero_finite 0
  · dsimp only
    split
    · rfl
    · split
      · rfl
      · exact jsOrZero_finite _

/-- A blank field counts as 0, any other as the binary64 value of its numeral. -/
theorem jsOrZero_parseFloat (text : Option ℚ) :
    jsOrZero (parseFloat text) = (text.map round64).getD (.finite 0) := by
  cases text with
  | none => rfl
  | some v => exact jsOrZero_round64 v

theorem jsAdd_finite (a b : ℚ) : jsAdd (.finite a) (.finite b) = round64 (a + b) := rfl

theorem jsMul_finite (a b : ℚ) : jsMul (.finite a) (.finite b) = round64 (a * b) := rfl

theorem jsMul_safe (a b : ℤ) (h : |a * b| < 2 ^ 53) :
    jsMul (.finite a) (.finite b) = .finite ((a * b : ℤ) : ℚ) := by
  have hr := round64_intCast (a * b) h
  rw [jsMul_finite, ← hr]
  push_cast
  rfl

theorem updateOrderTotal_eq_foldl (items : List OrderItemInputs) :
    updateOrderTotal items =
      items.foldl
        (fun total item =>
          jsAdd total
            (jsMul (jsOrZero (parseFloat item.quantity)) (jsOrZero (parseFloat item.price))))
        (.finite 0) := rfl

/-- Lines of whole numbers are totalled exactly while the absolute amounts met so
far stay below 2^53. -/
theorem foldl_lines_safe (lines : List (ℤ × ℤ)) (a : ℤ)
    (hl : ∀ l ∈ lines, |l.1| < 2 ^ 53 ∧ |l.2| < 2 ^ 53)
    (h : |a| + (lines.map (fun l => |l.1 * l.2|)).sum < 2 ^ 53) :
    (lines.map (fun l =>
        ({ quantity := some (l.1 : ℚ), price := some (l.2 : ℚ) } : OrderItemInputs))).foldl
        (fun total item =>
          jsAdd total
            (jsMul (jsOrZero (parseFloat item.quantity)) (jsOrZero (parseFloat item.price))))
        (.finite a) =
      .finite ((a + (lines.map (fun l => l.1 * l.2)).sum : ℤ) : ℚ) := by
  induction lines generalizing a with
  | nil => simp
  | cons l lines ih =>
    have hnn := sum_abs_nonneg (fun l : ℤ × ℤ => l.1 * l.2) lines
    simp only [List.map_cons, List.sum_cons] at h
    have habs := abs_nonneg a
    have hprod : |l.1 * l.2| < 2 ^ 53 := by linarith
    have htri := abs_add a (l.1 * l.2)
    have hsum : |a + l.1 * l.2| < 2 ^ 53 := by linarith
    obtain ⟨hq, hp⟩ := hl l (List.mem_cons_self _ _)
    have hq2 : jsOrZero (parseFloat (some (l.1 : ℚ))) = .finite l.1 := by
      rw [jsOrZero_parseFloat]
      exact round64_intCast l.1 hq
    have hp2 : jsOrZero (parseFloat (some (l.2 : ℚ))) = .finite l.2 := by
      rw [jsOrZero_parseFloat]
      exact round64_intCast l.2 hp
    rw [List.map_cons, List.foldl_cons]
    dsimp only
    rw [hq2, hp2, jsMul_safe _ _ hprod, jsAdd_safe _ _ hsum,
      ih (a + l.1 * l.2) (fun x hx => hl x (List.mem_cons_of_mem _ hx)) (by linarith)]
    simp [add_assoc]

theorem round64_three_tenths_again :
    round64 (1351079888211149 / 4503599627370496) =
      .finite (1351079888211149 / 4503599627370496) := by
  apply round64_eq_of _ _ (-2) 5404319552844596
  · rw [abs_of_pos (by norm_num)]
    norm_num
  · rw [abs_of_pos (by norm_num)]
    norm_num
  · norm_num
  · apply roundHalfEven_down
    · norm_num
    · norm_num
  · norm_num
  · rw [abs_of_pos (by norm_num)]
    norm_num

/-- C3, as stated, fails: for one line of quantity 3 at unit price 0.1 the total
computed is 0.3000000000000000444…, not 3 × 0.1. -/
theorem C3_counterexample_three_times_one_tenth :
    updateOrderTotal [{ quantity := some 3, price := some (1 / 10) }] =
        .finite (1351079888211149 / 4503599627370496) ∧
      (1351079888211149 / 4503599627370496 : ℚ) ≠ 3 * (1 / 10) := by
  constructor
  · have h3 : round64 3 = .finite 3 := by exact_mod_cast round64_intCast 3 (by norm_num)
    rw [updateOrderTotal_eq_foldl]
    simp only [List.foldl_cons, List.foldl_nil, parseFloat]
    rw [h3, round64_one_tenth, jsOrZero_finite, jsOrZero_finite, jsMul_finite,
      round64_three_tenths, jsAdd_finite, zero_add, round64_three_tenths_again]
  · norm_num

/-- C3, amended: the order total `updateOrderTotal` computes is the binary64 sum,
taken from 0 in line order, of the binary64 products quantity × unit price, where a
blank or unparseable quantity or price counts as 0 and any other as the binary64
value of its numeral; the empty order totals 0; and for lines of whole-number
quantities and prices below 2^53 whose absolute amounts add up to less than 2^53
the total is exactly the sum of quantity × unit price. -/
theorem C3_order_total_is_binary64_sum_of_line_amounts (items : List OrderItemInputs) :
    updateOrderTotal items =
        (items.map (fun item =>
          jsMul ((item.quantity.map round64).getD (.finite 0))
            ((item.price.map round64).getD (.finite 0)))).foldl jsAdd (.finite 0) ∧
      updateOrderTotal [] = .finite 0 ∧
      ∀ lines : List (ℤ × ℤ),
        (∀ l ∈ lines, |l.1| < 2 ^ 53 ∧ |l.2| < 2 ^ 53) →
        (lines.map (fun l => |l.1 * l.2|)).sum < 2 ^ 53 →
        updateOrderTotal
            (lines.map (fun l =>
              ({ quantity := some (l.1 : ℚ), price := some (l.2 : ℚ) } : OrderItemInputs))) =
          .finite ((lines.map (fun l => l.1 * l.2)).sum : ℤ) := by
  refine ⟨?_, rfl, ?_⟩
  · rw [updateOrderTotal_eq_foldl, List.foldl_map]
    congr 1
    funext total item
    rw [jsOrZero_parseFloat, jsOrZero_parseFloat]
  · intro lines hl hsum
    have h0 : JsNumber.finite 0 = .finite ((0 : ℤ) : ℚ) := by simp
    rw [updateOrderTotal_eq_foldl, h0, foldl_lines_safe lines 0 hl (by simpa using hsum)]
    simp

/-- C3 at an order of 3 at unit price 20 and 2 at unit price 0: the bounds hold and
the total is 60. -/
theorem C3_whole_amounts_witness :
    (∀ l ∈ [((3 : ℤ), (20 : ℤ)), (2, 0)], |l.1| < 2 ^ 53 ∧ |l.2| < 2 ^ 53) ∧
      ([((3 : ℤ), (20 : ℤ)), (2, 0)].map (fun l => |l.1 * l.2|)).sum < 2 ^ 53 ∧
      updateOrderTotal
          [{ quantity := some 3, price := some 20 }, { quantity := some 2, price := some 0 }] =
        .finite 60 := by
  have hl : ∀ l ∈ [((3 : ℤ), (20 : ℤ)), (2, 0)], |l.1| < 2 ^ 53 ∧ |l.2| < 2 ^ 53 := by decide
  have hs : ([((3 : ℤ), (20 : ℤ)), (2, 0)].map (fun l => |l.1 * l.2|)).sum < 2 ^ 53 := by
    decide
  have h := (C3_order_total_is_binary64_sum_of_line_amounts []).2.2 _ hl hs
  refine ⟨hl, hs, ?_⟩
  simpa using h

/-! ## Rounding error of an order total -/

/-- Up to a billion and one the rounding is finite and off by at most 2^-23. -/
theorem round64_error_abs (x : ℚ) (hx : |x| ≤ 10 ^ 9 + 1) :
    ∃ y, round64 x = .finite y ∧ |y - x| ≤ 1 / 2 ^ 23 := by
  have hlt : |x| < 2 ^ 1023 := by
    calc |x| ≤ 10 ^ 9 + 1 := hx
      _ < 2 ^ 1023 := by norm_num
  obtain ⟨y, hy, herr⟩ := round64_error x hlt
  refine ⟨y, hy, ?_⟩
  have h1 : |x| / 2 ^ 53 ≤ (10 ^ 9 + 1) / 2 ^ 53 :=
    div_le_div_of_nonneg_right hx (by positivity)
  have h2 : ((10 : ℚ) ^ 9 + 1) / 2 ^ 53 + 1 / 2 ^ 1075 ≤ 1 / 2 ^ 23 := by norm_num
  linarith

/-- The amount of one line, quantity `q` at `c` hundredths a unit, is computed to
within 2^-22. -/
theorem line_amount_error (q c : ℕ) (hq1 : 1 ≤ q) (hq : q < 2 ^ 53) (ha : q * c ≤ 10 ^ 11) :
    ∃ r, jsMul (jsOrZero (parseFloat (some (q : ℚ))))
        (jsOrZero (parseFloat (some ((c : ℚ) / 100)))) = .finite r ∧
      |r - ((q * c : ℕ) : ℚ) / 100| ≤ 1 / 2 ^ 22 := by
  have hqread : jsOrZero (parseFloat (some (q : ℚ))) = .finite q := by
    rw [jsOrZero_parseFloat]
    have h := round64_intCast (q : ℤ) (by
      rw [abs_of_nonneg (by positivity)]
      exact_mod_cast hq)
    simpa using h
  have hq0 : (0 : ℚ) ≤ q := by positivity
  have hq1q : (1 : ℚ) ≤ q := by exact_mod_cast hq1
  have hqlt : (q : ℚ) ≤ 2 ^ 53 := by exact_mod_cast hq.le
  have haq : ((q : ℚ) * c) ≤ 10 ^ 11 := by exact_mod_cast ha
  have hc0 : (0 : ℚ) ≤ c := by positivity
  have hx0 : (0 : ℚ) ≤ (c : ℚ) / 100 := by positivity
  have hcle : (c : ℚ) ≤ 10 ^ 11 := by nlinarith
  have hxlt : |(c : ℚ) / 100| < 2 ^ 1023 := by
    rw [abs_of_nonneg hx0]
    calc (c : ℚ) / 100 ≤ 10 ^ 11 / 100 := div_le_div_of_nonneg_right hcle (by norm_num)
      _ < 2 ^ 1023 := by norm_num
  obtain ⟨p, hp, hperr⟩ := round64_error ((c : ℚ) / 100) hxlt
  rw [abs_of_nonneg hx0] at hperr
  have hpread : jsOrZero (parseFloat (some ((c : ℚ) / 100))) = .finite p := by
    rw [jsOrZero_parseFloat]
    simpa using hp
  have hz : |(q : ℚ) * p - (q * c : ℕ) / 100| ≤ 1 / 2 ^ 23 := by
    have e : (q : ℚ) * p - ((q * c : ℕ) : ℚ) / 100 = q * (p - c / 100) := by
      push_cast
      ring
    rw [e, abs_mul, abs_of_nonneg hq0]
    have h1 : (q : ℚ) * |p - c / 100| ≤ q * (c / 100 / 2 ^ 53 + 1 / 2 ^ 1075) :=
      mul_le_mul_of_nonneg_left hperr hq0
    have e2 : (q : ℚ) * (c / 100 / 2 ^ 53 + 1 / 2 ^ 1075) =
        (q * c) / (100 * 2 ^ 53) + q / 2 ^ 1075 := by ring
    have h2 : ((q : ℚ) * c) / (100 * 2 ^ 53) ≤ 10 ^ 11 / (100 * 2 ^ 53) :=
      div_le_div_of_nonneg_right haq (by positivity)
    have h3 : (q : ℚ) / 2 ^ 1075 ≤ 2 ^ 53 / 2 ^ 1075 :=
      div_le_div_of_nonneg_right hqlt (by positivity)
    have h4 : (10 : ℚ) ^ 11 / (100 * 2 ^ 53) + 2 ^ 53 / 2 ^ 1075 ≤ 1 / 2 ^ 23 := by norm_num
    linarith
  have ha100 : (((q * c : ℕ) : ℚ)) / 100 ≤ 10 ^ 9 := by
    have : ((q * c : ℕ) : ℚ) ≤ 10 ^ 11 := by exact_mod_cast ha
    linarith
  have ha0 : (0 : ℚ) ≤ ((q * c : ℕ) : ℚ) / 100 :=
    div_nonneg (Nat.cast_nonneg _) (by norm_num)
  have hzabs : |(q : ℚ) * p| ≤ 10 ^ 9 + 1 := by
    have h5 := abs_le.1 hz
    have h6 : (1 : ℚ) / 2 ^ 23 ≤ 1 := by norm_num
    rw [abs_le]
    constructor <;> linarith
  obtain ⟨r, hr, hrerr⟩ := round64_error_abs ((q : ℚ) * p) hzabs
  refine ⟨r, ?_, ?_⟩
  · rw [hqread, hpread, jsMul_finite, hr]
  · have h7 := abs_le.1 hz
    have h8 := abs_le.1 hrerr
    have h9 : (1 : ℚ) / 2 ^ 22 = 1 / 2 ^ 23 + 1 / 2 ^ 23 := by norm_num
    rw [abs_le, h9]
    constructor <;> linarith

/-- Adding a line amount known to within 2^-22 to a running total known to within
`n` times 2^-21 gives the new total to within `n + 1` times 2^-21. -/
theorem add_line_error (t s r a : ℚ) (n : ℕ) (hn : n < 100) (ht : |t - s| ≤ n / 2 ^ 21)
    (hr : |r - a| ≤ 1 / 2 ^ 22) (hs0 : 0 ≤ s) (ha0 : 0 ≤ a) (hsa : s + a ≤ 10 ^ 9) :
    ∃ u, jsAdd (.finite t) (.finite r) = .finite u ∧ |u - (s + a)| ≤ (n + 1 : ℕ) / 2 ^ 21 := by
  have hnq : (n : ℚ) ≤ 100 := by exact_mod_cast hn.le
  have hn2 : (n : ℚ) / 2 ^ 21 ≤ 100 / 2 ^ 21 := div_le_div_of_nonneg_right hnq (by positivity)
  have h1 := abs_le.1 ht
  have h2 := abs_le.1 hr
  have hc1 : (100 : ℚ) / 2 ^ 21 + 1 / 2 ^ 22 ≤ 1 := by norm_num
  have hw : |t + r| ≤ 10 ^ 9 + 1 := by
    rw [abs_le]
    constructor <;> linarith
  obtain ⟨u, hu, huerr⟩ := round64_error_abs (t + r) hw
  refine ⟨u, by rw [jsAdd_finite, hu], ?_⟩
  have h3 := abs_le.1 huerr
  have e : (((n + 1 : ℕ) : ℚ)) / 2 ^ 21 = n / 2 ^ 21 + 1 / 2 ^ 22 + 1 / 2 ^ 23 + 1 / 2 ^ 23 := by
    push_cast
    ring
  rw [abs_le, e]
  constructor <;> linarith

/-- A run of at most 100 lines in hundredths, totalling at most a billion, is added
up to within 2^-21 a line. -/
theorem foldl_cents_error (lines : List (ℕ × ℕ)) (t s : ℚ) (n : ℕ)
    (hq : ∀ l ∈ lines, 1 ≤ l.1 ∧ l.1 < 2 ^ 53) (hs0 : 0 ≤ s)
    (hsum : s + (((lines.map (fun l => l.1 * l.2)).sum : ℕ) : ℚ) / 100 ≤ 10 ^ 9)
    (hn : n + lines.length ≤ 100) (ht : |t - s| ≤ n / 2 ^ 21) :
    ∃ u,
      (lines.map centsLine).foldl
          (fun total item =>
            jsAdd total
              (jsMul (jsOrZero (parseFloat item.quantity)) (jsOrZero (parseFloat item.price))))
          (.finite t) = .finite u ∧
        |u - (s + (((lines.map (fun l => l.1 * l.2)).sum : ℕ) : ℚ) / 100)| ≤
          ((n + lines.length : ℕ) : ℚ) / 2 ^ 21 := by
  induction lines generalizing t s n with
  | nil => exact ⟨t, rfl, by simpa using ht⟩
  | cons l ls ih =>
    simp only [List.map_cons, List.sum_cons, List.length_cons] at hsum hn ⊢
    have hrest : (0 : ℚ) ≤ (((ls.map (fun l => l.1 * l.2)).sum : ℕ) : ℚ) / 100 :=
      div_nonneg (Nat.cast_nonneg _) (by norm_num)
    have hsplit : (((l.1 * l.2 + (ls.map (fun l => l.1 * l.2)).sum : ℕ)) : ℚ) / 100 =
        ((l.1 * l.2 : ℕ) : ℚ) / 100 + (((ls.map (fun l => l.1 * l.2)).sum : ℕ) : ℚ) / 100 := by
      push_cast
      ring
    rw [hsplit] at hsum ⊢
    have ha0 : (0 : ℚ) ≤ ((l.1 * l.2 : ℕ) : ℚ) / 100 :=
      div_nonneg (Nat.cast_nonneg _) (by norm_num)
    have ha : l.1 * l.2 ≤ 10 ^ 11 := by
      have h1 : ((l.1 * l.2 : ℕ) : ℚ) ≤ 10 ^ 11 := by linarith
      exact_mod_cast h1
    obtain ⟨hq1, hq2⟩ := hq l (List.mem_cons_self _ _)
    obtain ⟨r, hr, hrerr⟩ := line_amount_error l.1 l.2 hq1 hq2 ha
    obtain ⟨u1, hu1, hu1err⟩ :=
      add_line_error t s r (((l.1 * l.2 : ℕ) : ℚ) / 100) n (by omega) ht hrerr hs0 ha0
        (by linarith)
    obtain ⟨u, hu, huerr⟩ :=
      ih u1 (s + ((l.1 * l.2 : ℕ) : ℚ) / 100) (n + 1)
        (fun x hx => hq x (List.mem_cons_of_mem _ hx)) (by linarith) (by linarith) (by omega)
        hu1err
    refine ⟨u, ?_, ?_⟩
    · rw [List.foldl_cons]
      have hstep : jsAdd (.finite t)
          (jsMul (jsOrZero (parseFloat (centsLine l).quantity))
            (jsOrZero (parseFloat (centsLine l).price))) = .finite u1 := by
        show jsAdd (.finite t)
          (jsMul (jsOrZero (parseFloat (some (l.1 : ℚ))))
            (jsOrZero (parseFloat (some ((l.2 : ℚ) / 100))))) = _
        rw [hr, hu1]
      rw [hstep, hu]
    · have e : ((n + (ls.length + 1) : ℕ) : ℚ) = ((n + 1 + ls.length : ℕ) : ℚ) := by
        push_cast
        ring
      rw [e, ← add_assoc]
      exact huerr

/-- A number within a ten-thousandth of `S` hundredths is written as `S` hundredths. -/
theorem toFixed2_of_near (t : ℚ) (S : ℕ) (h : |t - (S : ℚ) / 100| ≤ 1 / 10 ^ 4)
    (hS : S ≤ 10 ^ 11) : toFixed2 (.finite t) = some (S : ℤ) := by
  have h1 := abs_le.1 h
  have hSq : (S : ℚ) ≤ 10 ^ 11 := by exact_mod_cast hS
  have hS0 : (0 : ℚ) ≤ S := Nat.cast_nonneg S
  have hbig : ¬ (10 : ℚ) ^ 21 ≤ |t| := by
    rw [not_le, abs_lt]
    constructor <;> linarith
  simp only [toFixed2, hbig, if_false]
  by_cases hneg : t < 0
  · have hSlt : (S : ℚ) < 1 := by linarith
    have hS00 : S = 0 := by
      have : S < 1 := by exact_mod_cast hSlt
      omega
    subst hS00
    rw [if_pos hneg]
    have hfl : ⌊100 * -t + 1 / 2⌋ = 0 := by
      rw [Int.floor_eq_iff]
      simp only [Nat.cast_zero, zero_div, sub_zero] at h1
      constructor
      · push_cast
        linarith
      · push_cast
        linarith
    rw [hfl]
    rfl
  · rw [if_neg hneg]
    have hfl : ⌊100 * t + 1 / 2⌋ = (S : ℤ) := by
      rw [Int.floor_eq_iff]
      constructor
      · push_cast
        linarith
      · push_cast
        linarith
    rw [hfl]

theorem updateOrderTotal_single (q p : Option ℚ) :
    updateOrderTotal [{ quantity := q, price := p }] =
      jsAdd (.finite 0) (jsMul (jsOrZero (parseFloat q)) (jsOrZero (parseFloat p))) := rfl

theorem parseFloat_some (v : ℚ) : parseFloat (some v) = round64 v := rfl

theorem toFixed2_finite_nonneg (v : ℚ) (h0 : 0 ≤ v) (hlt : v < 10 ^ 21) :
    toFixed2 (.finite v) = some ⌊100 * v + 1 / 2⌋ := by
  have hbig : ¬ (10 : ℚ) ^ 21 ≤ |v| := by
    rw [abs_of_nonneg h0]
    exact not_le.2 hlt
  have hneg : ¬ v < 0 := not_lt.2 h0
  simp only [toFixed2, hbig, hneg, if_false]

/-- C11, as stated, fails: one line of quantity 9007199254740993 at unit price 1.00
is totalled as 9007199254740992, and that amount, 900719925474099200 hundredths,
is what goes to the total field, not the exact 900719925474099300. -/
theorem C11_counterexample_quantity_above_two_pow_53 :
    updateOrderTotal [{ quantity := some 9007199254740993, price := some 1 }] =
        .finite 9007199254740992 ∧
      shownOrderTotal [{ quantity := some 9007199254740993, price := some 1 }] =
        some 900719925474099200 ∧
      (900719925474099200 : ℤ) ≠ 9007199254740993 * 100 := by
  have hq : round64 9007199254740993 = .finite 9007199254740992 := round64_two_pow_53_add_one
  have hp : round64 1 = .finite 1 := by
    have h1 := round64_intCast 1 (by norm_num)
    simpa using h1
  have hm : round64 (9007199254740992 * 1) = .finite 9007199254740992 := by
    rw [mul_one]
    exact round64_two_pow_53
  have ha : round64 (0 + 9007199254740992) = .finite 9007199254740992 := by
    rw [zero_add]
    exact round64_two_pow_53
  have htotal :
      updateOrderTotal [{ quantity := some 9007199254740993, price := some 1 }] =
        .finite 9007199254740992 := by
    rw [updateOrderTotal_single, parseFloat_some, parseFloat_some, hq, hp, jsOrZero_finite,
      jsOrZero_finite, jsMul_finite, hm, jsAdd_finite, ha]
  refine ⟨htotal, ?_, by norm_num⟩
  rw [shownOrderTotal, htotal, toFixed2_finite_nonneg _ (by norm_num) (by norm_num)]
  congr 1
  rw [Int.floor_eq_iff]
  constructor <;> norm_num

/-- C11, amended: for every order of at most 100 lines whose unit prices are whole
numbers of hundredths and whose quantities are positive integers below 2^53, with
an exact total of at most 1,000,000,000.00, the total `updateOrderTotal` computes
is within 0.0001 of the exact decimal sum of quantity × unit price, and the amount
its `toFixed(2)` writes to the total field is exactly that sum. -/
theorem C11_shown_total_is_exact_within_bounds (lines : List (ℕ × ℕ))
    (hlen : lines.length ≤ 100) (hq : ∀ l ∈ lines, 1 ≤ l.1 ∧ l.1 < 2 ^ 53)
    (hsum : (lines.map (fun l => l.1 * l.2)).sum ≤ 10 ^ 11) :
    (∃ t, updateOrderTotal (lines.map centsLine) = .finite t ∧
      |t - (((lines.map (fun l => l.1 * l.2)).sum : ℕ) : ℚ) / 100| ≤ 1 / 10 ^ 4) ∧
    shownOrderTotal (lines.map centsLine) =
      some (((lines.map (fun l => l.1 * l.2)).sum : ℕ) : ℤ) := by
  have hsumq : ((((lines.map (fun l => l.1 * l.2)).sum : ℕ)) : ℚ) ≤ 10 ^ 11 := by
    exact_mod_cast hsum
  obtain ⟨u, hu, huerr⟩ :=
    foldl_cents_error lines 0 0 0 hq le_rfl (by linarith) (by omega) (by simp)
  have hlenq : ((0 + lines.length : ℕ) : ℚ) ≤ 100 := by
    have : 0 + lines.length ≤ 100 := by omega
    exact_mod_cast this
  have hbound : |u - (((lines.map (fun l => l.1 * l.2)).sum : ℕ) : ℚ) / 100| ≤ 1 / 10 ^ 4 := by
    rw [zero_add] at huerr
    have h1 : ((0 + lines.length : ℕ) : ℚ) / 2 ^ 21 ≤ 100 / 2 ^ 21 :=
      div_le_div_of_nonneg_right hlenq (by positivity)
    have h2 : (100 : ℚ) / 2 ^ 21 ≤ 1 / 10 ^ 4 := by norm_num
    linarith
  have htotal : updateOrderTotal (lines.map centsLine) = .finite u := by
    rw [updateOrderTotal_eq_foldl]
    exact hu
  refine ⟨⟨u, htotal, hbound⟩, ?_⟩
  rw [shownOrderTotal, htotal]
  exact toFixed2_of_near u _ hbound hsum

/-- C11 at the order of 3 at 19.99 and 1 at 0.01: the bounds hold and 59.98 is
written to the total field. -/
theorem C11_two_lines_witness :
    [((3 : ℕ), (1999 : ℕ)), (1, 1)].length ≤ 100 ∧
      (∀ l ∈ [((3 : ℕ), (1999 : ℕ)), (1, 1)], 1 ≤ l.1 ∧ l.1 < 2 ^ 53) ∧
      ([((3 : ℕ), (1999 : ℕ)), (1, 1)].map (fun l => l.1 * l.2)).sum ≤ 10 ^ 11 ∧
      shownOrderTotal [centsLine (3, 1999), centsLine (1, 1)] = some 5998 := by
  have h1 : [((3 : ℕ), (1999 : ℕ)), (1, 1)].length ≤ 100 := by decide
  have h2 : ∀ l ∈ [((3 : ℕ), (1999 : ℕ)), (1, 1)], 1 ≤ l.1 ∧ l.1 < 2 ^ 53 := by decide
  have h3 : ([((3 : ℕ), (1999 : ℕ)), (1, 1)].map (fun l => l.1 * l.2)).sum ≤ 10 ^ 11 := by
    decide
  exact ⟨h1, h2, h3, (C11_shown_total_is_exact_within_bounds _ h1 h2 h3).2⟩

/-! ## Stock class -/

theorem jsLt_ten_iff (t : JsNumber) :
    jsLt t (.finite 10) = true ↔ (∃ v, t = .finite v ∧ v < 10) ∨ t = .negInf := by
  cases t <;> simp [jsLt]

/-- C4: `displayProducts` marks a product's card `stock-low` exactly when the total
stock it computed over all formats is strictly below 10 (a number below 10 or
-Infinity) and `stock-ok` otherwise; a total of 9 is low, a total of 10 is not;
and while the format quantities have absolute values adding up to less than 2^53
the computed total is their sum, so the card is `stock-low` exactly when that sum
is below 10. -/
theorem C4_low_stock_iff_total_below_ten (product : Product) :
    ((productCard product).stockClass = "stock-low" ↔
      (∃ v, (productCard product).totalStock = .finite v ∧ v < 10) ∨
        (productCard product).totalStock = .negInf) ∧
    ((productCard product).stockClass = "stock-ok" ↔
      ¬ ((∃ v, (productCard product).totalStock = .finite v ∧ v < 10) ∨
        (productCard product).totalStock = .negInf)) ∧
    stockClass (.finite 9) = "stock-low" ∧ stockClass (.finite 10) = "stock-ok" ∧
    ((product.formats.map (fun f => |f.quantity|)).sum < 2 ^ 53 →
      (productCard product).totalStock =
          .finite ((product.formats.map (fun f => f.quantity)).sum : ℤ) ∧
        ((productCard product).stockClass = "stock-low" ↔
          (product.formats.map (fun f => f.quantity)).sum < 10)) := by
  have hclass : ∀ t : JsNumber,
      (stockClass t = "stock-low" ↔ jsLt t (.finite 10) = true) ∧
        (stockClass t = "stock-ok" ↔ ¬ jsLt t (.finite 10) = true) := by
    intro t
    unfold stockClass
    cases jsLt t (.finite 10) <;> simp
  refine ⟨?_, ?_, ?_, ?_, ?_⟩
  · show stockClass (totalStock product) = "stock-low" ↔ _
    rw [(hclass _).1, jsLt_ten_iff]
    rfl
  · show stockClass (totalStock product) = "stock-ok" ↔ _
    rw [(hclass _).2, jsLt_ten_iff]
    rfl
  · rw [(hclass _).1]
    simp [jsLt]
    norm_num
  · rw [(hclass _).2]
    simp [jsLt]
  · intro hsafe
    have ht := totalStock_safe product hsafe
    refine ⟨ht, ?_⟩
    show stockClass (totalStock product) = "stock-low" ↔ _
    rw [(hclass _).1, ht]
    simp only [jsLt, decide_eq_true_eq]
    constructor
    · intro h
      exact_mod_cast h
    · intro h
      exact_mod_cast h

/-- C4 at the product with the format quantities 0 and 5: the bound holds, the
computed total is 5 and the card is `stock-low`. -/
theorem C4_moonlight_witness :
    (moonlightProduct.formats.map (fun f => |f.quantity|)).sum < 2 ^ 53 ∧
      (productCard moonlightProduct).totalStock = .finite 5 ∧
      (productCard moonlightProduct).stockClass = "stock-low" := by
  have hb : (moonlightProduct.formats.map (fun f => |f.quantity|)).sum < 2 ^ 53 := by decide
  have h := (C4_low_stock_iff_total_below_ten moonlightProduct).2.2.2.2 hb
  refine ⟨hb, ?_, ?_⟩
  · rw [h.1]
    simp [moonlightProduct]
  · rw [h.2]
    decide

/-- C5, as stated, fails: two rows of one product arriving CD first and Vinyl
second give that product the formats CD, Vinyl, whose ids 2, 1 are not ascending. -/
theorem C5_counterexample_formats_out_of_display_order :
    ∃ p, loadCatalogProducts rowsCdThenVinyl = some [p] ∧
      p.formats.map (fun f => f.name) = ["CD", "Vinyl"] ∧
      ¬ ascendingFormatIds (p.formats.map (fun f => f.id)) := by
  refine ⟨_, rfl, by decide, by decide⟩

/-- C5, amended: the formats entries of each product produced by `loadCatalog`
follow the arrival order of that product's rows, each named after its format id;
they are in the display order Vinyl, CD, Cassette (ids ascending) exactly when the
rows of that product arrive with ascending format ids. -/
theorem C5_formats_follow_row_arrival_order (rows : List InventoryRow) :
    ∃ products, loadCatalogProducts rows = some products ∧
      ∀ p ∈ products,
        p.formats.map (fun f => (f.id, f.name)) =
            (rows.filter (fun r => r.ProductID = p.id)).map
              (fun r => (r.FormatID, catalogFormatName r.FormatID)) ∧
          (ascendingFormatIds (p.formats.map (fun f => f.id)) ↔
            ascendingFormatIds
              ((rows.filter (fun r => r.ProductID = p.id)).map (fun r => r.FormatID))) := by
  refine ⟨_, loadCatalogProducts_eq rows, ?_⟩
  intro p hp
  have h := groupRowsT_formats rows p hp
  constructor
  · rw [h, List.map_map]
    rfl
  · rw [h, List.map_map]
    rfl

/-! ## Substring search -/

theorem startsWithChars_iff (s t : List Char) :
    startsWithChars s t = true ↔ ∃ r, s = t ++ r := by
  induction t generalizing s with
  | nil => simp [startsWithChars]
  | cons d ds ih =>
    cases s with
    | nil => simp [startsWithChars]
    | cons c cs =>
      simp only [startsWithChars, Bool.and_eq_true, beq_iff_eq, ih, List.cons_append,
        List.cons.injEq]
      constructor
      · rintro ⟨h, r, hr⟩
        exact ⟨r, h, hr⟩
      · rintro ⟨r, h, hr⟩
        exact ⟨h, r, hr⟩

theorem includesChars_iff (s t : List Char) :
    includesChars s t = true ↔ ∃ l r, s = l ++ t ++ r := by
  induction s with
  | nil =>
    simp only [includesChars, startsWithChars_iff]
    constructor
    · rintro ⟨r, hr⟩
      exact ⟨[], r, by simpa using hr⟩
    · rintro ⟨l, r, h⟩
      have h1 : l ++ t ++ r = [] := h.symm
      simp only [List.append_eq_nil] at h1
      exact ⟨[], by simp [h1.1.2]⟩
  | cons c cs ih =>
    simp only [includesChars, Bool.or_eq_true, startsWithChars_iff, ih]
    constructor
    · rintro (⟨r, hr⟩ | ⟨l, r, h⟩)
      · exact ⟨[], r, by simpa using hr⟩
      · exact ⟨c :: l, r, by simp [h]⟩
    · rintro ⟨l, r, h⟩
      cases l with
      | nil => exact Or.inl ⟨r, by simpa using h⟩
      | cons x l =>
        simp only [List.cons_append, List.cons.injEq] at h
        exact Or.inr ⟨l, r, h.2⟩

theorem includes_iff (toLowerCase : String → String) (field term : String) :
    includes (toLowerCase field) (toLowerCase term) = true ↔
      containsIgnoringCase toLowerCase field term := by
  rw [includes, includesChars_iff, containsIgnoringCase]

theorem includes_empty (s t : String) (h : t = "") : includes s t = true := by
  subst h
  rw [includes, includesChars_iff]
  exact ⟨[], s.data, by simp⟩

/-- C6: for every product list and every search text the search shows exactly the
products, in their original order, whose title, artist or genre contains the text
as a substring when case is ignored; the empty text shows all products. -/
theorem C6_search_shows_matching_products (toLowerCase : String → String)
    (hempty : toLowerCase "" = "") (allProducts : List Product) (value : String) :
    (catalogSearchInput toLowerCase allProducts value).cardList =
        (allProducts.filter (fun p => decide (matchesSearch toLowerCase value p))).map
          productCard ∧
      (catalogSearchInput toLowerCase allProducts "").cardList =
        allProducts.map productCard := by
  constructor
  · have hfilter : ∀ p ∈ allProducts,
        (includes (toLowerCase p.title) (toLowerCase value) ||
          includes (toLowerCase p.artist) (toLowerCase value) ||
          includes (toLowerCase p.genre) (toLowerCase value)) =
        decide (matchesSearch toLowerCase value p) := by
      intro p _
      rw [Bool.eq_iff_iff]
      simp only [Bool.or_eq_true, decide_eq_true_eq, matchesSearch, includes_iff, or_assoc]
    by_cases h : toLowerCase value = ""
    · simp only [catalogSearchInput, h, if_true, displayProducts_cardList]
      congr 1
      symm
      rw [List.filter_eq_self]
      intro p hp
      rw [← hfilter p hp, h, includes_empty _ _ rfl]
      rfl
    · simp only [catalogSearchInput, h, if_false, displayProducts_cardList]
      congr 1
      exact List.filter_congr hfilter
  · simp [catalogSearchInput, hempty, displayProducts_cardList]

/-- C6 at a concrete catalog: the text `BLUE` with ASCII lower-casing shows the
first and third product, the two whose title contains `blue`. -/
theorem C6_search_witness :
    asciiLower "" = "" ∧
      ((catalogSearchInput asciiLower sampleCatalog "BLUE").cardList =
          (sampleCatalog.filter (fun p => decide (matchesSearch asciiLower "BLUE" p))).map
            productCard ∧
        (catalogSearchInput asciiLower sampleCatalog "").cardList =
          sampleCatalog.map productCard) ∧
      (catalogSearchInput asciiLower sampleCatalog "BLUE").cardList.map
          (fun c => c.productId) = [1, 3] :=
  ⟨rfl, C6_search_shows_matching_products asciiLower rfl sampleCatalog "BLUE", by decide⟩

/-! ## Form handlers -/

theorem intOrZero_eq_getD (x : Option Int) : intOrZero x = x.getD 0 := by
  cases x with
  | none => rfl
  | some v =>
    by_cases h : v = 0
    · simp [intOrZero, h]
    · simp [intOrZero, h]

/-- C7: for every customer id, submitting the order form with an empty line list
shows the error `Please add at least one item to the order` and nothing else, and
sends no request; a request goes out only for a non-empty line list. -/
theorem C7_empty_order_is_rejected (orderCustomerId : Option Int)
    (server : Request → FetchOutcome) :
    createOrderSubmit [] orderCustomerId server =
        [.showMessage (.text "Please add at least one item to the order") "error"] ∧
      requestsSent (createOrderSubmit [] orderCustomerId server) = [] ∧
      ∀ orderItems : List OrderItem,
        requestsSent (createOrderSubmit orderItems orderCustomerId server) = [] ↔
          orderItems = [] := by
  refine ⟨rfl, rfl, ?_⟩
  intro orderItems
  cases orderItems with
  | nil => exact ⟨fun _ => rfl, fun _ => rfl⟩
  | cons item items =>
    simp [createOrderSubmit, requestsSent]

theorem selectedFormats_eq (form : AddProductForm) :
    selectedFormats form =
      ([(form.formatVinyl, (1 : Int), form.vinylQty), (form.formatCD, 2, form.cdQty),
          (form.formatCassette, 3, form.cassetteQty)].filter (fun t => t.1)).map
        (fun t => { formatId := t.2.1, quantity := t.2.2.getD 0 }) := by
  simp only [selectedFormats, intOrZero_eq_getD]
  cases form.formatVinyl <;> cases form.formatCD <;> cases form.formatCassette <;> rfl

theorem requestsSent_addProductSubmit (form : AddProductForm) (server : Request → FetchOutcome)
    (h : selectedFormats form ≠ []) :
    requestsSent (addProductSubmit form server) =
      [ { method := "POST", url := API_URL ++ "/products",
          body := .product
            { title := form.title, artist := form.artist, releaseDate := form.releaseDate,
              genre := form.genre, label := form.label, price := form.price,
              formats := selectedFormats form } } ] := by
  have hlen : ¬ (selectedFormats form).length = 0 := by
    intro h0
    exact h (List.length_eq_zero.1 h0)
  simp only [addProductSubmit, hlen, if_false]
  split
  · split <;> simp [requestsSent]
  · simp [requestsSent]

/-- C8: an add-product submission with no format ticked, whatever its other
fields, shows the error `Please select at least one format` and sends no request;
with at least one format ticked the one request sent carries exactly one
`{formatId, quantity}` entry per ticked format, in the order Vinyl, CD, Cassette,
with the parsed quantity or 0. -/
theorem C8_add_product_requires_a_format (form : AddProductForm)
    (server : Request → FetchOutcome) :
    (form.formatVinyl = false ∧ form.formatCD = false ∧ form.formatCassette = false →
      addProductSubmit form server =
          [.showMessage (.text "Please select at least one format") "error"] ∧
        requestsSent (addProductSubmit form server) = []) ∧
    (form.formatVinyl = true ∨ form.formatCD = true ∨ form.formatCassette = true →
      ∃ data : ProductData,
        requestsSent (addProductSubmit form server) =
            [{ method := "POST", url := API_URL ++ "/products", body := .product data }] ∧
          data.formats =
            ([(form.formatVinyl, (1 : Int), form.vinylQty), (form.formatCD, 2, form.cdQty),
                (form.formatCassette, 3, form.cassetteQty)].filter (fun t => t.1)).map
              (fun t => { formatId := t.2.1, quantity := t.2.2.getD 0 })) := by
  constructor
  · rintro ⟨hv, hc, hk⟩
    have hsel : selectedFormats form = [] := by
      rw [selectedFormats_eq, hv, hc, hk]
      rfl
    simp [addProductSubmit, hsel, requestsSent]
  · intro h
    have hsel : selectedFormats form ≠ [] := by
      rw [selectedFormats_eq]
      rcases h with h | h | h <;> rw [h] <;>
        cases form.formatVinyl <;> cases form.formatCD <;> cases form.formatCassette <;>
        simp
    exact ⟨_, requestsSent_addProductSubmit form server hsel, selectedFormats_eq form⟩

/-- C8 at two concrete submissions: one with no box ticked, rejected without a
request, and one with Vinyl and Cassette ticked, sent with the entries 1 and 3. -/
theorem C8_add_product_witness :
    (addProductSubmit sampleNoFormatForm acceptingServer =
        [.showMessage (.text "Please select at least one format") "error"] ∧
      requestsSent (addProductSubmit sampleNoFormatForm acceptingServer) = []) ∧
    ∃ data : ProductData,
      requestsSent (addProductSubmit sampleAddProductForm acceptingServer) =
          [{ method := "POST", url := API_URL ++ "/products", body := .product data }] ∧
        data.formats = [{ formatId := 1, quantity := 5 }, { formatId := 3, quantity := 0 }] :=
  ⟨(C8_add_product_requires_a_format sampleNoFormatForm acceptingServer).1 ⟨rfl, rfl, rfl⟩,
    (C8_add_product_requires_a_format sampleAddProductForm acceptingServer).2 (Or.inl rfl)⟩

/-- C9, as stated, fails: a restock submission with new quantity -5 is sent as a
`PUT` quantity update carrying -5, and when the server accepts it the form reports
success and shows no error. -/
theorem C9_counterexample_negative_quantity_is_sent :
    updateInventorySubmit (some 7) (some 1) (some (-5)) acceptingServer =
        [ .fetch
            { method := "PUT", url := API_URL ++ "/inventory",
              body := .inventory
                { productId := some 7, formatId := some 1, quantity := some (-5) } },
          .showMessage (.text "Inventory updated successfully!") "success",
          .closeModalAndReload 2000 ] ∧
      errorsShown (updateInventorySubmit (some 7) (some 1) (some (-5)) acceptingServer) = [] := by
  constructor
  · rfl
  · decide

/-- C9, amended: every restock submission, a negative new quantity included, is
sent as one `PUT` quantity update carrying the product id, format and quantity as
entered; the form shows an error exactly when the server does not answer with an
OK reply, and then the error is the server's message or the thrown one. -/
theorem C9_restock_is_sent_as_entered (invProductId invFormat newQuantity : Option Int)
    (server : Request → FetchOutcome) :
    requestsSent (updateInventorySubmit invProductId invFormat newQuantity server) =
        [ { method := "PUT", url := API_URL ++ "/inventory",
            body := .inventory
              { productId := invProductId, formatId := invFormat,
                quantity := newQuantity } } ] ∧
      errorsShown (updateInventorySubmit invProductId invFormat newQuantity server) =
        match
          server
            { method := "PUT", url := API_URL ++ "/inventory",
              body := .inventory
                { productId := invProductId, formatId := invFormat,
                  quantity := newQuantity } } with
        | .reply result => if result.ok then [] else [.text ("Error: " ++ result.message)]
        | .threw errorMessage => [.text ("Error: " ++ errorMessage)] := by
  simp only [updateInventorySubmit]
  split
  · split <;> simp_all [requestsSent, errorsShown]
  · simp [requestsSent, errorsShown]

/-- C10: every place that relates a format identifier to a format name uses the
table 1 = Vinyl, 2 = CD, 3 = Cassette: the name lookups of `loadCatalog`,
`loadProductDetails` and `getInventoryInfo`, the catalog filters `vinyl`, `cd`,
`cassette`, and the format ids the add-product form sends: its one `POST` to
`/products` carries 1, 2, 3 for the ticked ones of its Vinyl, CD and Cassette
boxes, in that order, and nothing is sent when no box is ticked.  The names in the
format entries of `loadCatalog` and in the table of `loadProductDetails` are those
of the lookups. -/
theorem C10_format_table_is_uniform (form : AddProductForm)
    (server : Request → FetchOutcome) :
    (catalogFormatName 1 = "Vinyl" ∧ catalogFormatName 2 = "CD" ∧
      catalogFormatName 3 = "Cassette") ∧
    (detailsFormatName 1 = "Vinyl" ∧ detailsFormatName 2 = "CD" ∧
      detailsFormatName 3 = "Cassette") ∧
    (∀ o : FormatOption, o ≠ .selectFormat →
      inventoryInfoFormatName o = o.text ∧ o.value = toString o.toNumber ∧
        inventoryInfoFormatName o = catalogFormatName o.toNumber) ∧
    (catalogUrl "vinyl" = API_URL ++ "/inventory?formatId=1" ∧
      catalogUrl "cd" = API_URL ++ "/inventory?formatId=2" ∧
      catalogUrl "cassette" = API_URL ++ "/inventory?formatId=3") ∧
    (selectedFormats form).map (fun f => f.formatId) =
      ([(form.formatVinyl, (1 : Int)), (form.formatCD, 2), (form.formatCassette, 3)].filter
        (fun t => t.1)).map (fun t => t.2) ∧
    (∀ item : InventoryRow, (formatEntry item).name = catalogFormatName item.FormatID) ∧
    (∀ rows : List InventoryRow,
      (loadProductDetails rows).map (fun d => d.table.map (fun t => t.1)) =
        rows.head?.map (fun _ => rows.map (fun inv => detailsFormatName inv.FormatID))) ∧
    (requestsSent (addProductSubmit form server)).map
        (fun r => (r.method, r.url, formatIdsOfRequest r)) =
      if form.formatVinyl || form.formatCD || form.formatCassette then
        [("POST", API_URL ++ "/products",
          ([(form.formatVinyl, (1 : Int)), (form.formatCD, 2), (form.formatCassette, 3)].filter
            (fun t => t.1)).map (fun t => t.2))]
      else [] := by
  have hids : (selectedFormats form).map (fun f => f.formatId) =
      ([(form.formatVinyl, (1 : Int)), (form.formatCD, 2), (form.formatCassette, 3)].filter
        (fun t => t.1)).map (fun t => t.2) := by
    rw [selectedFormats_eq]
    cases form.formatVinyl <;> cases form.formatCD <;> cases form.formatCassette <;> rfl
  refine ⟨by decide, by decide, ?_, by decide, hids, fun _ => rfl, ?_, ?_⟩
  · intro o ho
    cases o with
    | selectFormat => exact absurd rfl ho
    | vinyl => decide
    | cd => decide
    | cassette => decide
  · intro rows
    cases rows with
    | nil => rfl
    | cons r rs => simp [loadProductDetails]
  · by_cases hany : (form.formatVinyl || form.formatCD || form.formatCassette) = true
    · have hsel : selectedFormats form ≠ [] := by
        rw [selectedFormats_eq]
        revert hany
        cases form.formatVinyl <;> cases form.formatCD <;> cases form.formatCassette <;> simp
      rw [if_pos hany, requestsSent_addProductSubmit form server hsel, ← hids]
      rfl
    · have hsel : selectedFormats form = [] := by
        rw [selectedFormats_eq]
        revert hany
        cases form.formatVinyl <;> cases form.formatCD <;> cases form.formatCassette <;> simp
      rw [if_neg hany]
      simp [addProductSubmit, hsel, requestsSent]

/-! ## Grouping keeps every row once -/

theorem mem_firstAppearances (l : List Int) (x : Int) : x ∈ firstAppearances l ↔ x ∈ l := by
  induction l with
  | nil => simp [firstAppearances]
  | cons a l ih =>
    simp only [firstAppearances, List.mem_cons, List.mem_filter, ih, decide_eq_true_eq]
    constructor
    · rintro (h | ⟨h, _⟩)
      · exact Or.inl h
      · exact Or.inr h
    · intro h
      by_cases hxa : x = a
      · exact Or.inl hxa
      · rcases h with h | h
        · exact Or.inl h
        · exact Or.inr ⟨h, hxa⟩

theorem firstAppearances_append_singleton (l : List Int) (x : Int) :
    firstAppearances (l ++ [x]) =
      if x ∈ l then firstAppearances l else firstAppearances l ++ [x] := by
  induction l with
  | nil => simp [firstAppearances]
  | cons a l ih =>
    rw [List.cons_append, firstAppearances, firstAppearances, ih]
    by_cases hxl : x ∈ l
    · simp [hxl]
    · by_cases hxa : x = a
      · subst hxa
        simp [hxl, List.filter_append]
      · simp [hxl, hxa, List.filter_append]

theorem groupRowsT_keys (rows : List InventoryRow) :
    (groupRowsT rows).keys = firstAppearances (rows.map (fun r => r.ProductID)) := by
  induction rows using List.reverseRecOn with
  | nil => rfl
  | append_singleton rows r ih =>
    rw [groupRowsT_append, groupStepT_keys, List.map_append, List.map_singleton,
      firstAppearances_append_singleton, ih]
    simp only [mem_firstAppearances]

/-- Every entry of the grouped map carries the title, artist, genre and price of
the first row with its product id. -/
theorem groupRowsT_header (rows : List InventoryRow) :
    ∀ e ∈ groupRowsT rows,
      ∃ first, rows.find? (fun r => r.ProductID = e.1) = some first ∧
        e.2.title = first.Title ∧ e.2.artist = first.Artist ∧ e.2.genre = first.Genre ∧
        e.2.price = first.Price := by
  induction rows using List.reverseRecOn with
  | nil => simp [groupRowsT]
  | append_singleton rows r ih =>
    intro e he
    rw [groupRowsT_append] at he
    cases hhas : (groupRowsT rows).has r.ProductID with
    | true =>
      rw [groupStepT, if_pos hhas, List.mem_map] at he
      obtain ⟨e0, he0, hfe⟩ := he
      obtain ⟨first, hfind, ht, ha, hg, hp⟩ := ih e0 he0
      have hkey : e.1 = e0.1 := by
        by_cases hk : e0.1 = r.ProductID
        · simp only [hk, beq_self_eq_true, if_true] at hfe
          rw [← hfe]
          exact hk.symm
        · simp only [beq_iff_eq, hk, if_false] at hfe
          rw [← hfe]
      have hhead : e.2.title = e0.2.title ∧ e.2.artist = e0.2.artist ∧
          e.2.genre = e0.2.genre ∧ e.2.price = e0.2.price := by
        by_cases hk : e0.1 = r.ProductID
        · simp only [hk, beq_self_eq_true, if_true] at hfe
          rw [← hfe]
          exact ⟨rfl, rfl, rfl, rfl⟩
        · simp only [beq_iff_eq, hk, if_false] at hfe
          rw [← hfe]
          exact ⟨rfl, rfl, rfl, rfl⟩
      refine ⟨first, ?_, ?_, ?_, ?_, ?_⟩
      · rw [hkey, List.find?_append, hfind]
        rfl
      · rw [hhead.1, ht]
      · rw [hhead.2.1, ha]
      · rw [hhead.2.2.1, hg]
      · rw [hhead.2.2.2, hp]
    | false =>
      rw [groupStepT, hhas] at he
      simp only [Bool.false_eq_true, if_false, List.mem_append, List.mem_singleton] at he
      rcases he with he | he
      · obtain ⟨first, hfind, hrest⟩ := ih e he
        refine ⟨first, ?_, hrest⟩
        rw [List.find?_append, hfind]
        rfl
      · subst he
        have hnk : r.ProductID ∉ (groupRowsT rows).keys := by
          intro hmem
          rw [(ProductMap.has_iff _ _).2 hmem] at hhas
          cases hhas
        have hnone : rows.find? (fun x => x.ProductID = r.ProductID) = none := by
          rw [List.find?_eq_none]
          intro x hx hxk
          apply hnk
          rw [groupRowsT_mem_keys]
          exact ⟨x, hx, by simpa using hxk⟩
        refine ⟨r, ?_, rfl, rfl, rfl, rfl⟩
        simp [List.find?_append, hnone]

theorem map_push_of_not_mem (m : ProductMap) (k : Int) (f : FormatEntry)
    (hk : k ∉ m.keys) :
    m.map (fun e =>
      if e.1 == k then (e.1, { e.2 with formats := e.2.formats ++ [f] }) else e) = m := by
  conv_rhs => rw [← List.map_id m]
  apply List.map_congr_left
  intro e he
  have hne : ¬ e.1 = k := by
    intro h
    apply hk
    rw [← h]
    exact List.mem_map_of_mem Prod.fst he
  simp [hne]

theorem formatCount_cons (e : Int × Product) (m : ProductMap) :
    ProductMap.formatCount (e :: m) = e.2.formats.length + ProductMap.formatCount m := by
  simp [ProductMap.formatCount, ProductMap.values]

theorem formatCount_map_push (m : ProductMap) (k : Int) (f : FormatEntry)
    (hnd : m.keys.Nodup) (hk : k ∈ m.keys) :
    ProductMap.formatCount
        (m.map (fun e =>
          if e.1 == k then (e.1, { e.2 with formats := e.2.formats ++ [f] }) else e)) =
      ProductMap.formatCount m + 1 := by
  induction m with
  | nil => simp [ProductMap.keys] at hk
  | cons e m ih =>
    simp only [ProductMap.keys, List.map_cons, List.nodup_cons, List.mem_cons] at hnd hk
    rw [List.map_cons, formatCount_cons, formatCount_cons]
    by_cases hek : e.1 = k
    · have hnot : k ∉ ProductMap.keys m := by
        rw [← hek]
        exact hnd.1
      rw [map_push_of_not_mem m k f hnot]
      simp only [hek, beq_self_eq_true, if_true, List.length_append, List.length_singleton]
      omega
    · have hin : k ∈ ProductMap.keys m := by
        rcases hk with hk | hk
        · exact absurd hk.symm hek
        · exact hk
      rw [ih hnd.2 hin]
      simp only [beq_iff_eq, hek, if_false]
      omega

theorem groupStepT_formatCount (m : ProductMap) (item : InventoryRow) (hnd : m.keys.Nodup) :
    ProductMap.formatCount (groupStepT m item) = ProductMap.formatCount m + 1 := by
  cases hhas : m.has item.ProductID with
  | true =>
    rw [groupStepT, if_pos hhas]
    exact formatCount_map_push m _ _ hnd ((ProductMap.has_iff m _).1 hhas)
  | false =>
    rw [groupStepT, hhas]
    simp [ProductMap.formatCount, ProductMap.values, newProduct]

theorem groupRowsT_formatCount (rows : List InventoryRow) :
    ProductMap.formatCount (groupRowsT rows) = rows.length := by
  induction rows using List.reverseRecOn with
  | nil => rfl
  | append_singleton rows r ih =>
    rw [groupRowsT_append, groupStepT_formatCount _ _ (groupRowsT_nodup rows), ih]
    simp

/-- C13: the grouping of `loadCatalog` neither loses nor duplicates a row: the
products come out in the order of first appearance of their `ProductID`, each
product's title, artist, genre and price are those of the first row with its id,
each product's formats list is the entries of exactly the input rows with its id,
in input order, and the format entries over all products number as many as the
rows. -/
theorem C13_grouping_keeps_rows_in_first_appearance_order (rows : List InventoryRow) :
    ∃ products, loadCatalogProducts rows = some products ∧
      products.map (fun p => p.id) = firstAppearances (rows.map (fun r => r.ProductID)) ∧
      (∀ p ∈ products,
        ∃ first, rows.find? (fun r => r.ProductID = p.id) = some first ∧
          p.title = first.Title ∧ p.artist = first.Artist ∧ p.genre = first.Genre ∧
          p.price = first.Price) ∧
      (∀ p ∈ products,
        p.formats = (rows.filter (fun r => r.ProductID = p.id)).map formatEntry) ∧
      (products.map (fun p => p.formats.length)).sum = rows.length := by
  refine ⟨_, loadCatalogProducts_eq rows, ?_, ?_, groupRowsT_formats rows, ?_⟩
  · rw [groupRowsT_ids, groupRowsT_keys]
  · intro p hp
    simp only [ProductMap.values, List.mem_map] at hp
    obtain ⟨e, he, rfl⟩ := hp
    have hid := (groupRowsT_entry rows e he).1
    rw [hid]
    exact groupRowsT_header rows e he
  · exact groupRowsT_formatCount rows

/-- The grouping evaluated on five rows of three products with interleaved rows:
products 7, 3, 9 in that order, product 7 with the header of its first row and
the formats CD, Vinyl as they arrived. -/
theorem loadCatalogProducts_rowsInterleaved :
    (loadCatalogProducts rowsInterleaved).map
        (fun ps => ps.map (fun p => (p.id, p.title, p.price, p.formats.map (fun f => f.sku)))) =
      some
        [ (7, "Moonlight", 20, ["M-CD", "M-V"]), (3, "Dawn", 15, ["D-V", "D-C"]),
          (9, "Dusk", 12, ["K-C"]) ] := by
  rfl

/-! ## Format names outside the table -/

theorem catalogFormatName_eq_formatNameOfValue (n : Int) :
    catalogFormatName n = formatNameOfValue (.number n) := by
  have h1 : (JsValue.number (n : ℚ) = JsValue.number 1) ↔ n = 1 := by
    constructor
    · intro h
      injection h with h
      exact_mod_cast h
    · intro h
      rw [h]
      norm_num
  have h2 : (JsValue.number (n : ℚ) = JsValue.number 2) ↔ n = 2 := by
    constructor
    · intro h
      injection h with h
      exact_mod_cast h
    · intro h
      rw [h]
      norm_num
  simp only [catalogFormatName, formatNameOfValue, h1, h2]

theorem detailsFormatName_eq_catalogFormatName (n : Int) :
    detailsFormatName n = catalogFormatName n := rfl

/-- C14: for every format identifier that is not strictly equal to the number 1 or
the number 2, identifiers outside {1, 2, 3} and values that are not numbers
included, the name lookup of `loadCatalog` and `loadProductDetails` gives
`Cassette`; every identifier gets one of the three names. -/
theorem C14_other_identifiers_are_named_cassette (formatID : JsValue)
    (h1 : formatID ≠ .number 1) (h2 : formatID ≠ .number 2) :
    formatNameOfValue formatID = "Cassette" ∧
      (∀ n : Int, formatID = .number n →
        catalogFormatName n = "Cassette" ∧ detailsFormatName n = "Cassette" ∧
          ∀ row : InventoryRow, row.FormatID = n → (formatEntry row).name = "Cassette") ∧
      ∀ v : JsValue, formatNameOfValue v ∈ ["Vinyl", "CD", "Cassette"] := by
  have hname : formatNameOfValue formatID = "Cassette" := by
    simp [formatNameOfValue, h1, h2]
  refine ⟨hname, ?_, ?_⟩
  · intro n hn
    have hcat : catalogFormatName n = "Cassette" := by
      rw [catalogFormatName_eq_formatNameOfValue, ← hn]
      exact hname
    refine ⟨hcat, hcat, ?_⟩
    intro row hrow
    simp only [formatEntry, hrow]
    exact hcat
  · intro v
    unfold formatNameOfValue
    split
    · simp
    · split <;> simp

/-- C14 at the identifier 7, outside the closed set: it is named `Cassette` by both
lookups. -/
theorem C14_identifier_seven_witness :
    JsValue.number 7 ≠ .number 1 ∧ JsValue.number 7 ≠ .number 2 ∧
      formatNameOfValue (.number 7) = "Cassette" ∧
      catalogFormatName 7 = "Cassette" ∧ detailsFormatName 7 = "Cassette" ∧
      formatNameOfValue (.string "1") = "Cassette" :=
  have h := C14_other_identifiers_are_named_cassette (.number 7) (by decide) (by decide)
  ⟨by decide, by decide, h.1, (h.2.1 7 (by norm_num)).1, (h.2.1 7 (by norm_num)).2.1,
    (C14_other_identifiers_are_named_cassette (.string "1") (by decide) (by decide)).1⟩

/-! ## The order draft -/

theorem updateOrderTotal_orderItems (s : OrderForm) :
    s.updateOrderTotal.orderItems = s.orderItems := rfl

theorem getInventoryInfo_orderItems (s : OrderForm) (i : Nat) (lookup : InventoryLookup) :
    (s.getInventoryInfo i lookup).1.orderItems = s.orderItems := by
  unfold OrderForm.getInventoryInfo
  split
  · rfl
  · split
    · rfl
    · split <;> rfl

/-- No action on the order form writes to `orderItems`. -/
theorem step_orderItems (s : OrderForm) (a : DraftAction) :
    (s.step a).orderItems = s.orderItems := by
  cases a with
  | getInventoryInfo i lookup => exact getInventoryInfo_orderItems s i lookup
  | _ => rfl

theorem run_orderItems (s : OrderForm) (actions : List DraftAction) :
    (s.run actions).orderItems = s.orderItems := by
  induction actions generalizing s with
  | nil => rfl
  | cons a actions ih =>
    rw [OrderForm.run, List.foldl_cons, ← OrderForm.run, ih, step_orderItems]

theorem run_append (s : OrderForm) (xs ys : List DraftAction) :
    s.run (xs ++ ys) = (s.run xs).run ys := by
  simp [OrderForm.run, List.foldl_append]

theorem run_addOrderItem_blocks (s : OrderForm) (n : Nat) :
    (s.run (List.replicate n .addOrderItem)).blocks.length = s.blocks.length + n := by
  induction n generalizing s with
  | zero => rfl
  | succ n ih =>
    rw [List.replicate_succ, OrderForm.run, List.foldl_cons, ← OrderForm.run, ih]
    simp only [OrderForm.step, OrderForm.addOrderItem, List.length_append,
      List.length_singleton]
    omega

/-- C12: after `setupCreateOrderForm` the draft list `orderItems` is empty and it
stays empty under every sequence of `addOrderItem`, `removeOrderItem`,
`getInventoryInfo`, `updateOrderTotal` and typing into the line items; so every
submission shows `Please add at least one item to the order` and sends no request,
although any number of line items can be on screen. -/
theorem C12_order_draft_stays_empty (previous : OrderForm) (actions : List DraftAction)
    (orderCustomerId : Option Int) (server : Request → FetchOutcome) :
    (setupCreateOrderForm previous).orderItems = [] ∧
      ((setupCreateOrderForm previous).run actions).orderItems = [] ∧
      createOrderSubmit ((setupCreateOrderForm previous).run actions).orderItems
          orderCustomerId server =
        [.showMessage (.text "Please add at least one item to the order") "error"] ∧
      requestsSent
          (createOrderSubmit ((setupCreateOrderForm previous).run actions).orderItems
            orderCustomerId server) = [] ∧
      ∀ n : Nat,
        ((setupCreateOrderForm previous).run
            (actions ++ List.replicate n .addOrderItem)).blocks.length ≥ n := by
  have hrun : ((setupCreateOrderForm previous).run actions).orderItems = [] := by
    rw [run_orderItems]
    rfl
  refine ⟨rfl, hrun, ?_, ?_, ?_⟩
  · rw [hrun]
    rfl
  · rw [hrun]
    rfl
  · intro n
    rw [run_append, run_addOrderItem_blocks]
    omega

/-- The sample session run from a used form: two line items worth 3 × 20 + 2 × 0
are on screen, the draft list is empty and the submission is rejected. -/
theorem sampleSession_is_rejected :
    ((setupCreateOrderForm usedOrderForm).run sampleSession).blocks.length = 2 ∧
      ((setupCreateOrderForm usedOrderForm).run sampleSession).orderTotal = .finite 60 ∧
      ((setupCreateOrderForm usedOrderForm).run sampleSession).orderItems = [] ∧
      createOrderSubmit ((setupCreateOrderForm usedOrderForm).run sampleSession).orderItems
          (some 4) acceptingServer =
        [.showMessage (.text "Please add at least one item to the order") "error"] := by
  refine ⟨by rfl, ?_, by rfl, by rfl⟩
  have hrun : ((setupCreateOrderForm usedOrderForm).run sampleSession).orderTotal =
      MusicStore.updateOrderTotal
        [{ quantity := some 3, price := some 20 }, { quantity := some 2, price := none }] := by
    simp [OrderForm.run, sampleSession, setupCreateOrderForm, OrderForm.step,
      OrderForm.addOrderItem, OrderForm.getInventoryInfo, OrderForm.updateOrderTotal,
      modifyBlock, rowsCdThenVinyl, FormatOption.value]
  have h3 : round64 3 = .finite 3 := by exact_mod_cast round64_intCast 3 (by norm_num)
  have h20 : round64 20 = .finite 20 := by exact_mod_cast round64_intCast 20 (by norm_num)
  have h2 : round64 2 = .finite 2 := by exact_mod_cast round64_intCast 2 (by norm_num)
  have h60 : round64 60 = .finite 60 := by exact_mod_cast round64_intCast 60 (by norm_num)
  have hm1 : round64 (3 * 20) = .finite 60 := by
    have e : (3 : ℚ) * 20 = 60 := by norm_num
    rw [e, h60]
  have ha1 : round64 (0 + 60) = .finite 60 := by
    rw [zero_add, h60]
  have hm2 : round64 (2 * 0) = .finite 0 := by
    rw [mul_zero]
    simp [round64]
  have ha2 : round64 (60 + 0) = .finite 60 := by
    rw [add_zero, h60]
  have hnone : jsOrZero (parseFloat none) = .finite 0 := rfl
  rw [hrun, updateOrderTotal_eq_foldl]
  simp only [List.foldl_cons, List.foldl_nil, parseFloat_some]
  rw [hnone, h3, h20, h2, jsOrZero_finite, jsOrZero_finite, jsOrZero_finite, jsMul_finite, hm1,
    jsAdd_finite, ha1, jsMul_finite, hm2, jsAdd_finite, ha2]

end MusicStore
